import Mathlib

/-!
Verification of the pipeline driver in tools/deploy.py.

The driver sequences a model-export pipeline: export to an intermediate
format, optional graph split, optional backend compilation, and two
visualization runs.  Every real step is an external collaborator function
executed in a worker process; the only channel back to the driver is a
shared numeric result flag.  We embed the driver as a deterministic
function from the deployment configuration, the command-line arguments and
a worker oracle (what each spawned worker writes into the shared flag) to
an instrumented run: a list of observable events (logging calls,
collaborator invocations with their arguments, interpreter exits) together
with an outcome.  Collaborators themselves are opaque: only their
invocations are recorded.

Notes on fidelity to the source:
  - the shared flag mp.Value with code d and initial 0 is modelled as an
    Int (claims only compare it with zero);
  - the bare Python builtin exit() raises SystemExit with argument None,
    which terminates the interpreter with exit status 0: the model records
    exitCall 0;
  - assert statements are modelled as an assertFail outcome carrying the
    asserted condition;
  - os.path.join, os.path.split and os.path.splitext are modelled with
    their POSIX semantics on the cases the driver exercises.
-/

namespace Deploy

/-- Model of os.path.join for two components (POSIX). -/
def ospJoin (a b : String) : String :=
  if b.data.head? = some '/' then b
  else if a = "" ∨ a.data.getLast? = some '/' then a ++ b
  else a ++ "/" ++ b

/-- Model of os.path.split p taking the second component: the part of the
path after the last slash. -/
def ospSplitTail (p : String) : String :=
  String.mk ((p.data.reverse.takeWhile (fun c => c ≠ '/')).reverse)

/-- Model of os.path.splitext taking the first component: everything before
the last dot, provided some character before that dot is not itself a dot
(Python keeps purely dotted prefixes such as .bashrc intact). -/
def splitextRoot (p : String) : String :=
  match (p.data.reverse.findIdx? (fun c => c = '.')) with
  | none => p
  | some rj =>
    let dotIdx := p.data.length - 1 - rj
    if (p.data.take dotIdx).any (fun c => c ≠ '.') then String.mk (p.data.take dotIdx)
    else p

/-- One entry of the split_params list of the deployment configuration.
The source field named end is spelled end_ here (Lean keyword). -/
structure SplitParam where
  save_file : String
  start : String
  end_ : String
deriving DecidableEq

/-- One entry of tensorrt_params.model_params: save_file is optional, the
driver derives a default name when it is absent. -/
structure ModelParam where
  save_file : Option String
deriving DecidableEq

/-- The tensorrt_params section; model_params is read with a default of the
empty list. -/
structure TensorrtParams where
  model_params : Option (List ModelParam)
deriving DecidableEq

/-- The pytorch2onnx section of the deployment configuration. -/
structure Pytorch2Onnx where
  save_file : String
deriving DecidableEq

/-- The deployment configuration as read by the driver.  Optional sections
are None when the attribute is absent; apply_marks is read with a default
of false, so it is a plain Bool. -/
structure DeployCfg where
  pytorch2onnx : Pytorch2Onnx
  apply_marks : Bool
  split_params : Option (List SplitParam)
  backend : Option String
  tensorrt_params : Option TensorrtParams
  codebase : String
deriving DecidableEq

/-- The parsed command-line arguments.  The boolean --show flag is spelled
show_ (Lean keyword); log_level is the numeric logging level. -/
structure Args where
  deploy_cfg : String
  model_cfg : String
  checkpoint : String
  img : String
  work_dir : String
  device : String
  log_level : Nat
  show_ : Bool
deriving DecidableEq

/-- A collaborator invocation together with all arguments the driver passes
to it.  These functions are external; only the call is recorded. -/
inductive Collab where
  | torch2onnx (img work_dir save_file deploy_cfg_path model_cfg_path checkpoint_path device : String)
  | extract_model (origin start end_ save_file : String)
  | onnx2tensorrt (work_dir save_file : String) (model_id : Nat) (deploy_cfg_path onnx_path device : String)
  | inference_model (model_cfg_path : String) (model_files : List String)
      (img codebase backend device output_file : String) (show_result : Bool)
deriving DecidableEq

/-- Observable events of a run.  An invoke event records the collaborator
call, the value of the shared flag at the moment the worker is spawned,
and the logging level captured by create_process and handed to
target_wrapper. -/
inductive Event where
  | flagCreate (init : Int)
  | logInfo (msg : String)
  | logError (msg : String)
  | invoke (c : Collab) (flagBefore : Int) (log_level : Nat)
  | exitCall (code : Nat)
deriving DecidableEq

/-- Driver-process state: current shared-flag value, number of worker
processes spawned so far (used to index the oracle), the root logger level
of the driver, and the event trace so far. -/
structure St where
  flag : Int
  stepIdx : Nat
  loggerLevel : Nat
  events : List Event
deriving DecidableEq

/-- Terminal outcomes that abort the pipeline: a call to exit() (with the
interpreter exit status), or a failed assert statement (carrying the
asserted condition). -/
inductive Halt where
  | exited (s : St) (code : Nat)
  | assertFail (s : St) (msg : String)
deriving DecidableEq

/-- The worker oracle: for the n-th spawned worker, the value it writes
into the shared flag, or none if it never writes (for instance because it
crashed before reaching the write). -/
def Oracle : Type := Nat → Option Int

/-- Append one event to the trace. -/
def emit (e : Event) (s : St) : St :=
  { s with events := s.events ++ [e] }

/-- Model of create_process: log the start line, capture the current logger
level, spawn the worker (recorded as an invoke event), join it (the oracle
yields the value the worker wrote into the shared flag, if any), and, when
a result flag was supplied, inspect it: non-zero logs an error and calls
exit(), zero logs success. -/
def create_process (name : String) (c : Collab) (useFlag : Bool)
    (oracle : Oracle) (s : St) : Except Halt St :=
  let s1 := emit (.logInfo (name ++ " start.")) s
  let lvl := s1.loggerLevel
  let s2 := emit (.invoke c s1.flag lvl) s1
  let s3 : St := { s2 with
    flag := (oracle s2.stepIdx).getD s2.flag,
    stepIdx := s2.stepIdx + 1 }
  if useFlag then
    if s3.flag ≠ 0 then
      .error (.exited (emit (.exitCall 0) (emit (.logError (name ++ " failed.")) s3)) 0)
    else
      .ok (emit (.logInfo (name ++ " success.")) s3)
  else
    .ok s3

/-- Operations target_wrapper performs on the worker-side root logger
before and including handing control to the target function. -/
inductive LoggerOp where
  | readLevel
  | setLevel (l : Nat)
  | runTarget
deriving DecidableEq

/-- Model of target_wrapper: it reads the root logger (the bare attribute
read logger.level on line 37), sets its level to the log_level argument the
driver captured, and then runs the target. -/
def target_wrapper_ops (log_level : Nat) : List LoggerOp :=
  [.readLevel, .setLevel log_level, .runTarget]

/-- The worker-side root logger level at the moment the target function
starts running, given the level a fresh worker process starts with. -/
def levelAtTargetRun : Nat → List LoggerOp → Option Nat
  | _, [] => none
  | lvl, .runTarget :: _ => some lvl
  | _, .setLevel x :: rest => levelAtTargetRun x rest
  | lvl, .readLevel :: rest => levelAtTargetRun lvl rest

/-- The step name the driver builds for one split invocation. -/
def splitName (p : SplitParam) : String :=
  "split model " ++ p.save_file ++ " with start: " ++ p.start ++ ", end: " ++ p.end_

/-- The for loop over split_params in main: each iteration runs the
extract_model collaborator through create_process and appends the produced
save path to the accumulated file list. -/
def splitLoop (work_dir : String) (oracle : Oracle) (origin : String) :
    List SplitParam → List String → St → Except Halt (List String × St)
  | [], acc, s => .ok (acc, s)
  | p :: rest, acc, s =>
    match create_process (splitName p)
        (.extract_model origin p.start p.end_ (ospJoin work_dir p.save_file))
        true oracle s with
    | .error h => .error h
    | .ok s' => splitLoop work_dir oracle origin rest (acc ++ [ospJoin work_dir p.save_file]) s'

/-- The save_file used for one tensorrt compilation entry: the explicit one
if present, else the onnx base name with the engine extension. -/
def trtSaveFile (mp : ModelParam) (onnx_path : String) : String :=
  mp.save_file.getD (splitextRoot (ospSplitTail onnx_path) ++ ".engine")

/-- The for loop over zip(range(len(onnx_files)), model_params, onnx_files)
in main: each iteration runs onnx2tensorrt through create_process and
appends the work-directory-joined save file to the backend file list. -/
def trtLoop (work_dir deploy_cfg_path device : String) (oracle : Oracle) :
    Nat → List ModelParam → List String → List String → St → Except Halt (List String × St)
  | _, [], _, acc, s => .ok (acc, s)
  | _, _ :: _, [], acc, s => .ok (acc, s)
  | model_id, mp :: mps, onnx_path :: rest, acc, s =>
    match create_process ("onnx2tensorrt of " ++ onnx_path)
        (.onnx2tensorrt work_dir (trtSaveFile mp onnx_path) model_id deploy_cfg_path onnx_path device)
        true oracle s with
    | .error h => .error h
    | .ok s' => trtLoop work_dir deploy_cfg_path device oracle (model_id + 1) mps rest
        (acc ++ [ospJoin work_dir (trtSaveFile mp onnx_path)]) s'

/-- The split-model stage of main: only when apply_marks is set; asserts
that split_params is present, then replaces the singleton post-export file
list by the split outputs. -/
def splitStage (cfg : DeployCfg) (args : Args) (oracle : Oracle)
    (onnx_files : List String) (s : St) : Except Halt (List String × St) :=
  if cfg.apply_marks then
    match cfg.split_params with
    | none => .error (.assertFail s "hasattr(deploy_cfg, split_params)")
    | some split_params =>
      splitLoop args.work_dir oracle (onnx_files.headD "") split_params [] s
  else .ok (onnx_files, s)

/-- The backend-compilation stage of main: only when the backend is
tensorrt; asserts that tensorrt_params is present and that model_params
and onnx_files have equal length, then compiles each file.  For any other
backend the file list is passed through unchanged. -/
def backendStage (cfg : DeployCfg) (args : Args) (oracle : Oracle)
    (onnx_files : List String) (s : St) : Except Halt (List String × St) :=
  if cfg.backend.getD "default" = "tensorrt" then
    match cfg.tensorrt_params with
    | none => .error (.assertFail s "hasattr(deploy_cfg, tensorrt_params)")
    | some tensorrt_params =>
      if (tensorrt_params.model_params.getD []).length = onnx_files.length then
        trtLoop args.work_dir args.deploy_cfg args.device oracle 0
          (tensorrt_params.model_params.getD []) onnx_files [] s
      else .error (.assertFail s "len(model_params) == len(onnx_files)")
  else .ok (onnx_files, s)

/-- The two visualization steps of main and the final success log line. -/
def visStage (cfg : DeployCfg) (args : Args) (oracle : Oracle)
    (backend_files : List String) (s : St) : Except Halt St := do
  let backend := cfg.backend.getD "default"
  let s ← create_process ("visualize " ++ backend ++ " model")
      (.inference_model args.model_cfg backend_files args.img cfg.codebase backend
        args.device ("output_" ++ backend ++ ".jpg") args.show_)
      true oracle s
  let s ← create_process "visualize pytorch model"
      (.inference_model args.model_cfg [args.checkpoint] args.img cfg.codebase "pytorch"
        args.device "output_pytorch.jpg" args.show_)
      true oracle s
  return emit (.logInfo "All process success.") s

/-- Model of main: set the root logger level, create the shared result flag
once (value 0), export with torch2onnx, run the optional split stage, the
optional backend stage, and the two visualization steps. -/
def main (cfg : DeployCfg) (args : Args) (oracle : Oracle) : Except Halt St := do
  let s0 : St :=
    { flag := 0, stepIdx := 0, loggerLevel := args.log_level, events := [.flagCreate 0] }
  let s1 ← create_process "torch2onnx"
      (.torch2onnx args.img args.work_dir cfg.pytorch2onnx.save_file args.deploy_cfg
        args.model_cfg args.checkpoint args.device)
      true oracle s0
  let onnx_files := [ospJoin args.work_dir cfg.pytorch2onnx.save_file]
  let (onnx_files, s2) ← splitStage cfg args oracle onnx_files s1
  let (backend_files, s3) ← backendStage cfg args oracle onnx_files s2
  visStage cfg args oracle backend_files s3

/-- The trace of a run, whether it completed, exited or assert-failed. -/
def eventsOf : Except Halt St → List Event
  | .ok s => s.events
  | .error (.exited s _) => s.events
  | .error (.assertFail s _) => s.events

/-- The collaborator invocations of a trace, in order. -/
def invokes (es : List Event) : List Collab :=
  es.filterMap fun e => match e with
    | .invoke c _ _ => some c
    | _ => none

/-- The events create_process emits for a step that succeeds (flag read
back as zero). -/
def stepEvents (name : String) (c : Collab) (fb : Int) (lvl : Nat) : List Event :=
  [.logInfo (name ++ " start."), .invoke c fb lvl, .logInfo (name ++ " success.")]

/-- The events of a fully successful split stage loop. -/
def splitEvents (work_dir origin : String) (lvl : Nat) (ps : List SplitParam) : List Event :=
  ps.flatMap fun p =>
    stepEvents (splitName p) (.extract_model origin p.start p.end_ (ospJoin work_dir p.save_file)) 0 lvl

/-- The extract_model invocations the split loop issues, in declaration
order of the split_params entries. -/
def splitCalls (work_dir origin : String) (ps : List SplitParam) : List Collab :=
  ps.map fun p => .extract_model origin p.start p.end_ (ospJoin work_dir p.save_file)

/-- The onnx2tensorrt invocations the backend loop issues, pairing the i-th
model parameter with the i-th onnx file. -/
def trtCalls (work_dir deploy_cfg_path device : String) :
    Nat → List ModelParam → List String → List Collab
  | _, [], _ => []
  | _, _ :: _, [] => []
  | k, mp :: mps, p :: paths =>
    .onnx2tensorrt work_dir (trtSaveFile mp p) k deploy_cfg_path p device ::
      trtCalls work_dir deploy_cfg_path device (k + 1) mps paths

/-- The events of a fully successful backend compilation loop. -/
def trtEvents (work_dir deploy_cfg_path device : String) (lvl : Nat) :
    Nat → List ModelParam → List String → List Event
  | _, [], _ => []
  | _, _ :: _, [] => []
  | k, mp :: mps, p :: paths =>
    stepEvents ("onnx2tensorrt of " ++ p)
        (.onnx2tensorrt work_dir (trtSaveFile mp p) k deploy_cfg_path p device) 0 lvl ++
      trtEvents work_dir deploy_cfg_path device lvl (k + 1) mps paths

/-- The backend file list the backend compilation loop accumulates. -/
def trtFiles (work_dir : String) : List ModelParam → List String → List String
  | [], _ => []
  | _ :: _, [] => []
  | mp :: mps, p :: paths => ospJoin work_dir (trtSaveFile mp p) :: trtFiles work_dir mps paths

/-- The intermediate file list after the split stage: the split outputs if
apply_marks is set, else the single post-export file. -/
def fileList (cfg : DeployCfg) (args : Args) : List String :=
  if cfg.apply_marks then
    (cfg.split_params.getD []).map (fun p => ospJoin args.work_dir p.save_file)
  else [ospJoin args.work_dir cfg.pytorch2onnx.save_file]

theorem exceptBind_ok {α β : Type} (a : α) (f : α → Except Halt β) :
    (Except.ok a >>= f : Except Halt β) = f a := rfl

theorem exceptBind_error {α β : Type} (h : Halt) (f : α → Except Halt β) :
    (Except.error h >>= f : Except Halt β) = .error h := rfl

/-- Closed form of create_process when every worker writes zero into the
shared flag. -/
theorem create_process_succ (name : String) (c : Collab) (oracle : Oracle)
    (s : St) (hor : ∀ n, oracle n = some 0) :
    create_process name c true oracle s =
      .ok { s with
            flag := 0, stepIdx := s.stepIdx + 1,
            events := s.events ++ stepEvents name c s.flag s.loggerLevel } := by
  simp [create_process, emit, hor, stepEvents]

/-- When create_process returns normally with a flag supplied, the flag was
read back as zero, the logger level is unchanged, and the trace grew by
exactly the three step events. -/
theorem create_process_ok (name : String) (c : Collab) (oracle : Oracle)
    (s s' : St) (h : create_process name c true oracle s = .ok s') :
    s'.flag = 0 ∧ s'.loggerLevel = s.loggerLevel ∧ s'.stepIdx = s.stepIdx + 1 ∧
      s'.events = s.events ++ stepEvents name c s.flag s.loggerLevel := by
  by_cases hf : (oracle s.stepIdx).getD s.flag ≠ 0
  · simp [create_process, emit, hf] at h
  · simp [create_process, emit, hf] at h
    push_neg at hf
    simp [← h, hf, stepEvents]

/-- When create_process aborts, the outcome is an exit with interpreter
status zero, the flag read back non-zero, and the trace ends with the
error log for this step followed by the exit event. -/
theorem create_process_exited (name : String) (c : Collab) (u : Bool) (oracle : Oracle)
    (s s' : St) (code : Nat)
    (h : create_process name c u oracle s = .error (.exited s' code)) :
    code = 0 ∧ s'.flag ≠ 0 ∧
      ∃ t, s'.events = t ++ [.logError (name ++ " failed."), .exitCall 0] := by
  cases u with
  | false => simp [create_process] at h
  | true =>
    by_cases hf : (oracle s.stepIdx).getD s.flag ≠ 0
    · simp [create_process, emit, hf] at h
      obtain ⟨h1, h2⟩ := h
      refine ⟨h2.symm, ?_, ?_⟩
      · simp [← h1, hf]
      · refine ⟨s.events ++ [.logInfo (name ++ " start."), .invoke c s.flag s.loggerLevel], ?_⟩
        rw [← h1]
        simp
    · simp [create_process, emit, hf] at h

/-- create_process never raises an assert failure. -/
theorem create_process_no_assert (name : String) (c : Collab) (u : Bool) (oracle : Oracle)
    (s s' : St) (msg : String) :
    create_process name c u oracle s ≠ .error (.assertFail s' msg) := by
  cases u with
  | false => simp [create_process]
  | true =>
    by_cases hf : (oracle s.stepIdx).getD s.flag ≠ 0 <;>
      simp [create_process, emit, hf]

/-- The events of the two visualization steps and the final log line on a
fully successful run. -/
def visEvents (cfg : DeployCfg) (args : Args) (backend_files : List String) (lvl : Nat) :
    List Event :=
  stepEvents ("visualize " ++ cfg.backend.getD "default" ++ " model")
      (.inference_model args.model_cfg backend_files args.img cfg.codebase
        (cfg.backend.getD "default") args.device
        ("output_" ++ cfg.backend.getD "default" ++ ".jpg") args.show_) 0 lvl ++
    stepEvents "visualize pytorch model"
      (.inference_model args.model_cfg [args.checkpoint] args.img cfg.codebase "pytorch"
        args.device "output_pytorch.jpg" args.show_) 0 lvl ++
    [.logInfo "All process success."]

/-- Closed form of the split loop when every worker writes zero. -/
theorem splitLoop_succ (work_dir origin : String) (oracle : Oracle)
    (hor : ∀ n, oracle n = some 0) (ps : List SplitParam) :
    ∀ (acc : List String) (s : St), s.flag = 0 →
    splitLoop work_dir oracle origin ps acc s =
      .ok (acc ++ ps.map (fun p => ospJoin work_dir p.save_file),
        { s with
          flag := 0, stepIdx := s.stepIdx + ps.length,
          events := s.events ++ splitEvents work_dir origin s.loggerLevel ps }) := by
  induction ps with
  | nil =>
    intro acc s hf
    cases s
    simp_all [splitLoop, splitEvents]
  | cons p rest ih =>
    intro acc s hf
    rw [splitLoop, create_process_succ _ _ _ _ hor]
    dsimp only
    rw [ih _ _ rfl]
    simp [splitEvents, stepEvents, hf, splitName]
    omega

/-- Closed form of the backend compilation loop when every worker writes
zero. -/
theorem trtLoop_succ (work_dir deploy_cfg_path device : String) (oracle : Oracle)
    (hor : ∀ n, oracle n = some 0) (mps : List ModelParam) :
    ∀ (paths : List String) (k : Nat) (acc : List String) (s : St), s.flag = 0 →
      mps.length = paths.length →
    trtLoop work_dir deploy_cfg_path device oracle k mps paths acc s =
      .ok (acc ++ trtFiles work_dir mps paths,
        { s with
          flag := 0, stepIdx := s.stepIdx + mps.length,
          events := s.events ++
            trtEvents work_dir deploy_cfg_path device s.loggerLevel k mps paths }) := by
  induction mps with
  | nil =>
    intro paths k acc s hf hlen
    cases s
    simp_all [trtLoop, trtEvents, trtFiles]
  | cons mp mps ih =>
    intro paths k acc s hf hlen
    cases paths with
    | nil => simp at hlen
    | cons p paths =>
      rw [trtLoop, create_process_succ _ _ _ _ hor]
      dsimp only
      rw [ih _ _ _ _ rfl (by simpa using hlen)]
      simp [trtEvents, trtFiles, stepEvents, hf]
      omega

/-- The split stage with apply_marks set and split_params present. -/
theorem splitStage_marks (cfg : DeployCfg) (args : Args) (oracle : Oracle)
    (files : List String) (s : St) (ps : List SplitParam)
    (hor : ∀ n, oracle n = some 0) (hf : s.flag = 0)
    (hm : cfg.apply_marks = true) (hsp : cfg.split_params = some ps) :
    splitStage cfg args oracle files s =
      .ok (ps.map (fun p => ospJoin args.work_dir p.save_file),
        { s with
          flag := 0, stepIdx := s.stepIdx + ps.length,
          events := s.events ++
            splitEvents args.work_dir (files.headD "") s.loggerLevel ps }) := by
  rw [splitStage, hm, hsp]
  simp only [if_true]
  rw [splitLoop_succ _ _ _ hor _ _ _ hf]
  simp

/-- The split stage without apply_marks passes the file list through. -/
theorem splitStage_nomarks (cfg : DeployCfg) (args : Args) (oracle : Oracle)
    (files : List String) (s : St) (hm : cfg.apply_marks = false) :
    splitStage cfg args oracle files s = .ok (files, s) := by
  simp [splitStage, hm]

/-- The split stage with apply_marks set but split_params absent raises the
hasattr assertion without running any collaborator. -/
theorem splitStage_missing (cfg : DeployCfg) (args : Args) (oracle : Oracle)
    (files : List String) (s : St)
    (hm : cfg.apply_marks = true) (hsp : cfg.split_params = none) :
    splitStage cfg args oracle files s =
      .error (.assertFail s "hasattr(deploy_cfg, split_params)") := by
  simp [splitStage, hm, hsp]

/-- The backend stage for any backend other than tensorrt passes the file
list through unchanged. -/
theorem backendStage_other (cfg : DeployCfg) (args : Args) (oracle : Oracle)
    (files : List String) (s : St) (hb : cfg.backend.getD "default" ≠ "tensorrt") :
    backendStage cfg args oracle files s = .ok (files, s) := by
  simp [backendStage, hb]

/-- The backend stage with tensorrt selected but tensorrt_params absent
raises the hasattr assertion. -/
theorem backendStage_missing (cfg : DeployCfg) (args : Args) (oracle : Oracle)
    (files : List String) (s : St)
    (hb : cfg.backend.getD "default" = "tensorrt") (htp : cfg.tensorrt_params = none) :
    backendStage cfg args oracle files s =
      .error (.assertFail s "hasattr(deploy_cfg, tensorrt_params)") := by
  simp [backendStage, hb, htp]

/-- The backend stage with tensorrt selected and a model_params length
mismatch raises the length assertion without invoking anything. -/
theorem backendStage_mismatch (cfg : DeployCfg) (args : Args) (oracle : Oracle)
    (files : List String) (s : St) (tp : TensorrtParams)
    (hb : cfg.backend.getD "default" = "tensorrt") (htp : cfg.tensorrt_params = some tp)
    (hlen : (tp.model_params.getD []).length ≠ files.length) :
    backendStage cfg args oracle files s =
      .error (.assertFail s "len(model_params) == len(onnx_files)") := by
  simp [backendStage, hb, htp, hlen]

/-- The backend stage with tensorrt selected, matching lengths and all
workers succeeding compiles each file in order. -/
theorem backendStage_trt (cfg : DeployCfg) (args : Args) (oracle : Oracle)
    (files : List String) (s : St) (tp : TensorrtParams)
    (hor : ∀ n, oracle n = some 0) (hf : s.flag = 0)
    (hb : cfg.backend.getD "default" = "tensorrt") (htp : cfg.tensorrt_params = some tp)
    (hlen : (tp.model_params.getD []).length = files.length) :
    backendStage cfg args oracle files s =
      .ok (trtFiles args.work_dir (tp.model_params.getD []) files,
        { s with
          flag := 0, stepIdx := s.stepIdx + (tp.model_params.getD []).length,
          events := s.events ++
            trtEvents args.work_dir args.deploy_cfg args.device s.loggerLevel 0
              (tp.model_params.getD []) files }) := by
  rw [backendStage, hb, htp]
  simp only [if_pos hlen, if_true]
  rw [trtLoop_succ _ _ _ _ hor _ _ _ _ _ hf hlen]
  simp

/-- The visualization stage when every worker writes zero. -/
theorem visStage_succ (cfg : DeployCfg) (args : Args) (oracle : Oracle)
    (backend_files : List String) (s : St)
    (hor : ∀ n, oracle n = some 0) (hf : s.flag = 0) :
    visStage cfg args oracle backend_files s =
      .ok { s with
            flag := 0, stepIdx := s.stepIdx + 2,
            events := s.events ++ visEvents cfg args backend_files s.loggerLevel } := by
  rw [visStage]
  rw [create_process_succ _ _ _ _ hor]
  rw [exceptBind_ok]
  rw [create_process_succ _ _ _ _ hor]
  rw [exceptBind_ok]
  simp [visEvents, stepEvents, hf, emit, pure, Except.pure, St.mk.injEq]

/-- The backend file list handed to the first visualization step: the
compiled engine files for tensorrt, otherwise the intermediate files
unchanged. -/
def backendFileList (cfg : DeployCfg) (args : Args) : List String :=
  if cfg.backend.getD "default" = "tensorrt" then
    trtFiles args.work_dir ((cfg.tensorrt_params.getD ⟨none⟩).model_params.getD [])
      (fileList cfg args)
  else fileList cfg args

/-- The full event trace of a run on which every worker writes zero into
the shared flag. -/
def mainEvents (cfg : DeployCfg) (args : Args) : List Event :=
  [.flagCreate 0] ++
    stepEvents "torch2onnx"
      (.torch2onnx args.img args.work_dir cfg.pytorch2onnx.save_file args.deploy_cfg
        args.model_cfg args.checkpoint args.device) 0 args.log_level ++
    (if cfg.apply_marks then
      splitEvents args.work_dir (ospJoin args.work_dir cfg.pytorch2onnx.save_file)
        args.log_level (cfg.split_params.getD [])
    else []) ++
    (if cfg.backend.getD "default" = "tensorrt" then
      trtEvents args.work_dir args.deploy_cfg args.device args.log_level 0
        ((cfg.tensorrt_params.getD ⟨none⟩).model_params.getD []) (fileList cfg args)
    else []) ++
    visEvents cfg args (backendFileList cfg args) args.log_level

/-- The number of worker processes spawned on a fully successful run. -/
def mainStepCount (cfg : DeployCfg) : Nat :=
  1 + (if cfg.apply_marks then (cfg.split_params.getD []).length else 0) +
    (if cfg.backend.getD "default" = "tensorrt" then
      ((cfg.tensorrt_params.getD ⟨none⟩).model_params.getD []).length
    else 0) + 2

/-- Characterization of a fully successful run: when every worker writes
zero and the configuration is consistent (split_params present if
apply_marks is set; for tensorrt, tensorrt_params present with as many
model_params entries as intermediate files), main completes normally and
its trace is exactly mainEvents. -/
theorem main_succ (cfg : DeployCfg) (args : Args) (oracle : Oracle)
    (hor : ∀ n, oracle n = some 0)
    (hs : cfg.apply_marks = true → cfg.split_params ≠ none)
    (hb : cfg.backend.getD "default" = "tensorrt" →
      cfg.tensorrt_params ≠ none ∧
        ((cfg.tensorrt_params.getD ⟨none⟩).model_params.getD []).length =
          (fileList cfg args).length) :
    main cfg args oracle =
      .ok { flag := 0, stepIdx := mainStepCount cfg, loggerLevel := args.log_level,
            events := mainEvents cfg args } := by
  have hsplit : splitStage cfg args oracle
      [ospJoin args.work_dir cfg.pytorch2onnx.save_file]
      { flag := 0, stepIdx := 0 + 1, loggerLevel := args.log_level,
        events := [Event.flagCreate 0] ++
          stepEvents "torch2onnx"
            (.torch2onnx args.img args.work_dir cfg.pytorch2onnx.save_file args.deploy_cfg
              args.model_cfg args.checkpoint args.device) 0 args.log_level } =
      .ok (fileList cfg args,
        { flag := 0,
          stepIdx := 0 + 1 + (if cfg.apply_marks then (cfg.split_params.getD []).length else 0),
          loggerLevel := args.log_level,
          events := [Event.flagCreate 0] ++
            stepEvents "torch2onnx"
              (.torch2onnx args.img args.work_dir cfg.pytorch2onnx.save_file args.deploy_cfg
                args.model_cfg args.checkpoint args.device) 0 args.log_level ++
            (if cfg.apply_marks then
              splitEvents args.work_dir (ospJoin args.work_dir cfg.pytorch2onnx.save_file)
                args.log_level (cfg.split_params.getD [])
            else []) }) := by
    by_cases hm : cfg.apply_marks = true
    · obtain ⟨ps, hps⟩ := Option.ne_none_iff_exists'.mp (hs hm)
      rw [splitStage_marks cfg args oracle _ _ ps hor rfl hm hps]
      simp [fileList, hm, hps]
    · have hm' : cfg.apply_marks = false := by simpa using hm
      rw [splitStage_nomarks cfg args oracle _ _ hm']
      simp [fileList, hm']
  have hback : ∀ s : St, s.flag = 0 → s.loggerLevel = args.log_level →
      backendStage cfg args oracle (fileList cfg args) s =
        .ok (backendFileList cfg args,
          { s with
            flag := 0,
            stepIdx := s.stepIdx +
              (if cfg.backend.getD "default" = "tensorrt" then
                ((cfg.tensorrt_params.getD ⟨none⟩).model_params.getD []).length
              else 0),
            events := s.events ++
              (if cfg.backend.getD "default" = "tensorrt" then
                trtEvents args.work_dir args.deploy_cfg args.device args.log_level 0
                  ((cfg.tensorrt_params.getD ⟨none⟩).model_params.getD []) (fileList cfg args)
              else []) }) := by
    intro s hsf hsl
    by_cases hbt : cfg.backend.getD "default" = "tensorrt"
    · obtain ⟨htp, hlen⟩ := hb hbt
      obtain ⟨tp, htp'⟩ := Option.ne_none_iff_exists'.mp htp
      rw [backendStage_trt cfg args oracle _ _ tp hor hsf hbt htp'
        (by rw [htp'] at hlen; simpa using hlen)]
      simp [backendFileList, hbt, htp', hsl]
    · rw [backendStage_other cfg args oracle _ _ hbt]
      cases s
      simp_all [backendFileList, hbt]
  rw [main]
  rw [create_process_succ _ _ _ _ hor]
  rw [exceptBind_ok]
  dsimp only
  rw [hsplit]
  rw [exceptBind_ok]
  dsimp only
  rw [hback _ rfl rfl]
  rw [exceptBind_ok]
  dsimp only
  rw [visStage_succ _ _ _ _ _ hor rfl]
  simp [mainEvents, mainStepCount, St.mk.injEq]

/-- Whether a collaborator call is a graph-split (extract_model) call. -/
def isExtractC : Collab → Bool
  | .extract_model _ _ _ _ => true
  | _ => false

/-- Whether a collaborator call is a backend-compile (onnx2tensorrt) call. -/
def isTrtC : Collab → Bool
  | .onnx2tensorrt _ _ _ _ _ _ => true
  | _ => false

/-- Whether a collaborator call is a visualization (inference_model) call. -/
def isInfC : Collab → Bool
  | .inference_model _ _ _ _ _ _ _ _ => true
  | _ => false

/-- The model-file lists of the visualization calls, in order. -/
def infFilesOf (cs : List Collab) : List (List String) :=
  cs.filterMap fun c => match c with
    | .inference_model _ files _ _ _ _ _ _ => some files
    | _ => none

/-- The backend tags of the visualization calls, in order. -/
def infBackendsOf (cs : List Collab) : List String :=
  cs.filterMap fun c => match c with
    | .inference_model _ _ _ _ backend _ _ _ => some backend
    | _ => none

/-- The output filenames of the visualization calls, in order. -/
def infOutputsOf (cs : List Collab) : List String :=
  cs.filterMap fun c => match c with
    | .inference_model _ _ _ _ _ _ output_file _ => some output_file
    | _ => none

theorem invokes_append (a b : List Event) : invokes (a ++ b) = invokes a ++ invokes b := by
  simp [invokes]

theorem invokes_stepEvents (name : String) (c : Collab) (fb : Int) (lvl : Nat) :
    invokes (stepEvents name c fb lvl) = [c] := by
  simp [invokes, stepEvents]

theorem invokes_splitEvents (work_dir origin : String) (lvl : Nat) (ps : List SplitParam) :
    invokes (splitEvents work_dir origin lvl ps) = splitCalls work_dir origin ps := by
  induction ps with
  | nil => simp [splitEvents, splitCalls, invokes]
  | cons p rest ih =>
    simp only [splitEvents, splitCalls, List.flatMap_cons, List.map_cons] at ih ⊢
    rw [invokes_append, invokes_stepEvents, ih]
    rfl

theorem invokes_trtEvents (work_dir deploy_cfg_path device : String) (lvl : Nat)
    (mps : List ModelParam) :
    ∀ (k : Nat) (paths : List String),
    invokes (trtEvents work_dir deploy_cfg_path device lvl k mps paths) =
      trtCalls work_dir deploy_cfg_path device k mps paths := by
  induction mps with
  | nil => intro k paths; simp [trtEvents, trtCalls, invokes]
  | cons mp mps ih =>
    intro k paths
    cases paths with
    | nil => simp [trtEvents, trtCalls, invokes]
    | cons p paths =>
      rw [trtEvents, trtCalls, invokes_append, invokes_stepEvents, ih]
      rfl

theorem invokes_visEvents (cfg : DeployCfg) (args : Args) (bf : List String) (lvl : Nat) :
    invokes (visEvents cfg args bf lvl) =
      [.inference_model args.model_cfg bf args.img cfg.codebase (cfg.backend.getD "default")
        args.device ("output_" ++ cfg.backend.getD "default" ++ ".jpg") args.show_,
       .inference_model args.model_cfg [args.checkpoint] args.img cfg.codebase "pytorch"
        args.device "output_pytorch.jpg" args.show_] := by
  simp [visEvents, stepEvents, invokes]

theorem filter_isExtractC_splitCalls (work_dir origin : String) (ps : List SplitParam) :
    (splitCalls work_dir origin ps).filter isExtractC = splitCalls work_dir origin ps := by
  induction ps with
  | nil => simp [splitCalls]
  | cons p rest ih => simp_all [splitCalls, isExtractC, List.filter_cons]

theorem filter_isExtractC_trtCalls (work_dir deploy_cfg_path device : String)
    (mps : List ModelParam) :
    ∀ (k : Nat) (paths : List String),
    (trtCalls work_dir deploy_cfg_path device k mps paths).filter isExtractC = [] := by
  induction mps with
  | nil => intro k paths; simp [trtCalls]
  | cons mp mps ih =>
    intro k paths
    cases paths with
    | nil => simp [trtCalls]
    | cons p paths =>
      simp_all [trtCalls, isExtractC, List.filter_cons]
      exact ih _ _

theorem filter_isTrtC_splitCalls (work_dir origin : String) (ps : List SplitParam) :
    (splitCalls work_dir origin ps).filter isTrtC = [] := by
  induction ps with
  | nil => simp [splitCalls]
  | cons p rest ih => simp_all [splitCalls, isTrtC, List.filter_cons]

theorem filter_isTrtC_trtCalls (work_dir deploy_cfg_path device : String)
    (mps : List ModelParam) :
    ∀ (k : Nat) (paths : List String),
    (trtCalls work_dir deploy_cfg_path device k mps paths).filter isTrtC =
      trtCalls work_dir deploy_cfg_path device k mps paths := by
  induction mps with
  | nil => intro k paths; simp [trtCalls]
  | cons mp mps ih =>
    intro k paths
    cases paths with
    | nil => simp [trtCalls]
    | cons p paths =>
      simp_all [trtCalls, isTrtC, List.filter_cons]
      exact ih _ _

theorem infFilesOf_splitCalls (work_dir origin : String) (ps : List SplitParam) :
    infFilesOf (splitCalls work_dir origin ps) = [] := by
  induction ps with
  | nil => simp [splitCalls, infFilesOf]
  | cons p rest ih => simp_all [splitCalls, infFilesOf]

theorem infFilesOf_trtCalls (work_dir deploy_cfg_path device : String)
    (mps : List ModelParam) :
    ∀ (k : Nat) (paths : List String),
    infFilesOf (trtCalls work_dir deploy_cfg_path device k mps paths) = [] := by
  induction mps with
  | nil => intro k paths; simp [trtCalls, infFilesOf]
  | cons mp mps ih =>
    intro k paths
    cases paths with
    | nil => simp [trtCalls, infFilesOf]
    | cons p paths =>
      simp_all [trtCalls, infFilesOf]
      exact ih _ _

theorem infOutputsOf_splitCalls (work_dir origin : String) (ps : List SplitParam) :
    infOutputsOf (splitCalls work_dir origin ps) = [] := by
  induction ps with
  | nil => simp [splitCalls, infOutputsOf]
  | cons p rest ih => simp_all [splitCalls, infOutputsOf]

theorem infOutputsOf_trtCalls (work_dir deploy_cfg_path device : String)
    (mps : List ModelParam) :
    ∀ (k : Nat) (paths : List String),
    infOutputsOf (trtCalls work_dir deploy_cfg_path device k mps paths) = [] := by
  induction mps with
  | nil => intro k paths; simp [trtCalls, infOutputsOf]
  | cons mp mps ih =>
    intro k paths
    cases paths with
    | nil => simp [trtCalls, infOutputsOf]
    | cons p paths =>
      simp_all [trtCalls, infOutputsOf]
      exact ih _ _

theorem infBackendsOf_splitCalls (work_dir origin : String) (ps : List SplitParam) :
    infBackendsOf (splitCalls work_dir origin ps) = [] := by
  induction ps with
  | nil => simp [splitCalls, infBackendsOf]
  | cons p rest ih => simp_all [splitCalls, infBackendsOf]

theorem infBackendsOf_trtCalls (work_dir deploy_cfg_path device : String)
    (mps : List ModelParam) :
    ∀ (k : Nat) (paths : List String),
    infBackendsOf (trtCalls work_dir deploy_cfg_path device k mps paths) = [] := by
  induction mps with
  | nil => intro k paths; simp [trtCalls, infBackendsOf]
  | cons mp mps ih =>
    intro k paths
    cases paths with
    | nil => simp [trtCalls, infBackendsOf]
    | cons p paths =>
      simp_all [trtCalls, infBackendsOf]
      exact ih _ _

/-- Every collaborator invocation recorded in a trace observed the shared
flag at its success value 0 and was handed the logging level L. -/
def GoodEvents (L : Nat) (es : List Event) : Prop :=
  ∀ c fb lvl, Event.invoke c fb lvl ∈ es → fb = 0 ∧ lvl = L

/-- Invariant on a pipeline result: on normal return the flag is back to 0
and the driver logger level is L, and in every case all recorded
invocations were good. -/
def GoodRes (L : Nat) : Except Halt St → Prop
  | .ok s => s.flag = 0 ∧ s.loggerLevel = L ∧ GoodEvents L s.events
  | .error h => GoodEvents L (eventsOf (.error h))

/-- The same invariant for stages returning a file list as well. -/
def GoodResP (L : Nat) : Except Halt (List String × St) → Prop
  | .ok (_, s) => s.flag = 0 ∧ s.loggerLevel = L ∧ GoodEvents L s.events
  | .error h => GoodEvents L (eventsOf (.error h))

theorem goodEvents_append (L : Nat) (es1 es2 : List Event)
    (h1 : GoodEvents L es1) (h2 : GoodEvents L es2) : GoodEvents L (es1 ++ es2) := by
  intro c fb lvl hmem
  rcases List.mem_append.mp hmem with h | h
  · exact h1 c fb lvl h
  · exact h2 c fb lvl h

/-- A good prefix extended by a start log, one good invocation and a tail
without invocations is still good. -/
theorem goodEvents_block (L : Nat) (pre : List Event) (m1 : String) (c : Collab)
    (post : List Event) (hg : GoodEvents L pre)
    (hpost : ∀ c' fb lvl, Event.invoke c' fb lvl ∉ post) :
    GoodEvents L (pre ++ Event.logInfo m1 :: Event.invoke c 0 L :: post) := by
  intro c' fb lvl hmem
  rcases List.mem_append.mp hmem with h | h
  · exact hg _ _ _ h
  · rcases List.mem_cons.mp h with h | h
    · cases h
    · rcases List.mem_cons.mp h with h | h
      · cases h
        exact ⟨rfl, rfl⟩
      · exact absurd h (hpost _ _ _)

/-- create_process preserves the invariant: the one invocation it records
observed flag 0 and level L, and on normal return the flag is 0 again. -/
theorem create_process_good (name : String) (c : Collab) (oracle : Oracle)
    (s : St) (L : Nat) (hf : s.flag = 0) (hl : s.loggerLevel = L)
    (hg : GoodEvents L s.events) :
    GoodRes L (create_process name c true oracle s) := by
  by_cases hnz : (oracle s.stepIdx).getD s.flag ≠ 0
  · have heq : create_process name c true oracle s =
        .error (.exited
          { flag := (oracle s.stepIdx).getD s.flag, stepIdx := s.stepIdx + 1,
            loggerLevel := s.loggerLevel,
            events := s.events ++ Event.logInfo (name ++ " start.") ::
              Event.invoke c s.flag s.loggerLevel ::
              [Event.logError (name ++ " failed."), Event.exitCall 0] } 0) := by
      simp [create_process, emit, hnz]
    rw [heq]
    show GoodEvents L _
    simp only [eventsOf]
    rw [hf, hl]
    refine goodEvents_block L s.events _ c _ hg ?_
    intro c' fb lvl h
    simp at h
  · have heq : create_process name c true oracle s =
        .ok
          { flag := (oracle s.stepIdx).getD s.flag, stepIdx := s.stepIdx + 1,
            loggerLevel := s.loggerLevel,
            events := s.events ++ Event.logInfo (name ++ " start.") ::
              Event.invoke c s.flag s.loggerLevel ::
              [Event.logInfo (name ++ " success.")] } := by
      simp [create_process, emit, hnz]
    rw [heq]
    push_neg at hnz
    refine ⟨hnz, hl, ?_⟩
    show GoodEvents L _
    rw [hf, hl]
    refine goodEvents_block L s.events _ c _ hg ?_
    intro c' fb lvl h
    simp at h

theorem splitLoop_good (work_dir origin : String) (oracle : Oracle) (L : Nat)
    (ps : List SplitParam) :
    ∀ (acc : List String) (s : St), s.flag = 0 → s.loggerLevel = L →
      GoodEvents L s.events →
    GoodResP L (splitLoop work_dir oracle origin ps acc s) := by
  induction ps with
  | nil =>
    intro acc s hf hl hg
    exact ⟨hf, hl, hg⟩
  | cons p rest ih =>
    intro acc s hf hl hg
    rw [splitLoop]
    have hcpg := create_process_good (splitName p)
      (.extract_model origin p.start p.end_ (ospJoin work_dir p.save_file)) oracle s L hf hl hg
    cases hcp : create_process (splitName p)
        (.extract_model origin p.start p.end_ (ospJoin work_dir p.save_file))
        true oracle s with
    | error h =>
      rw [hcp] at hcpg
      exact hcpg
    | ok s' =>
      rw [hcp] at hcpg
      exact ih _ _ hcpg.1 hcpg.2.1 hcpg.2.2

theorem trtLoop_good (work_dir deploy_cfg_path device : String) (oracle : Oracle) (L : Nat)
    (mps : List ModelParam) :
    ∀ (paths : List String) (k : Nat) (acc : List String) (s : St),
      s.flag = 0 → s.loggerLevel = L → GoodEvents L s.events →
    GoodResP L (trtLoop work_dir deploy_cfg_path device oracle k mps paths acc s) := by
  induction mps with
  | nil =>
    intro paths k acc s hf hl hg
    exact ⟨hf, hl, hg⟩
  | cons mp mps ih =>
    intro paths k acc s hf hl hg
    cases paths with
    | nil => exact ⟨hf, hl, hg⟩
    | cons p paths =>
      rw [trtLoop]
      have hcpg := create_process_good ("onnx2tensorrt of " ++ p)
        (.onnx2tensorrt work_dir (trtSaveFile mp p) k deploy_cfg_path p device) oracle s L hf hl hg
      cases hcp : create_process ("onnx2tensorrt of " ++ p)
          (.onnx2tensorrt work_dir (trtSaveFile mp p) k deploy_cfg_path p device)
          true oracle s with
      | error h =>
        rw [hcp] at hcpg
        exact hcpg
      | ok s' =>
        rw [hcp] at hcpg
        exact ih _ _ _ _ hcpg.1 hcpg.2.1 hcpg.2.2

theorem splitStage_good (cfg : DeployCfg) (args : Args) (oracle : Oracle) (L : Nat)
    (files : List String) (s : St)
    (hf : s.flag = 0) (hl : s.loggerLevel = L) (hg : GoodEvents L s.events) :
    GoodResP L (splitStage cfg args oracle files s) := by
  rw [splitStage]
  by_cases hm : cfg.apply_marks
  · simp only [hm, if_true]
    cases hsp : cfg.split_params with
    | none => exact hg
    | some ps => exact splitLoop_good _ _ _ _ _ _ _ hf hl hg
  · simp only [hm, if_false]
    exact ⟨hf, hl, hg⟩

theorem backendStage_good (cfg : DeployCfg) (args : Args) (oracle : Oracle) (L : Nat)
    (files : List String) (s : St)
    (hf : s.flag = 0) (hl : s.loggerLevel = L) (hg : GoodEvents L s.events) :
    GoodResP L (backendStage cfg args oracle files s) := by
  rw [backendStage]
  by_cases hbt : cfg.backend.getD "default" = "tensorrt"
  · simp only [hbt, if_true]
    cases htp : cfg.tensorrt_params with
    | none => exact hg
    | some tp =>
      by_cases hlen : (tp.model_params.getD []).length = files.length
      · simp only [hlen, if_true]
        exact trtLoop_good _ _ _ _ _ _ _ _ _ _ hf hl hg
      · simp only [hlen, if_false]
        exact hg
  · simp only [hbt, if_false]
    exact ⟨hf, hl, hg⟩

theorem visStage_good (cfg : DeployCfg) (args : Args) (oracle : Oracle) (L : Nat)
    (backend_files : List String) (s : St)
    (hf : s.flag = 0) (hl : s.loggerLevel = L) (hg : GoodEvents L s.events) :
    GoodRes L (visStage cfg args oracle backend_files s) := by
  rw [visStage]
  have h1 := create_process_good ("visualize " ++ cfg.backend.getD "default" ++ " model")
    (.inference_model args.model_cfg backend_files args.img cfg.codebase
      (cfg.backend.getD "default") args.device
      ("output_" ++ cfg.backend.getD "default" ++ ".jpg") args.show_) oracle s L hf hl hg
  cases hcp : create_process ("visualize " ++ cfg.backend.getD "default" ++ " model")
      (.inference_model args.model_cfg backend_files args.img cfg.codebase
        (cfg.backend.getD "default") args.device
        ("output_" ++ cfg.backend.getD "default" ++ ".jpg") args.show_)
      true oracle s with
  | error h =>
    rw [hcp] at h1
    simp only [exceptBind_error]
    exact h1
  | ok s1 =>
    rw [hcp] at h1
    simp only [exceptBind_ok]
    have h2 := create_process_good "visualize pytorch model"
      (.inference_model args.model_cfg [args.checkpoint] args.img cfg.codebase "pytorch"
        args.device "output_pytorch.jpg" args.show_) oracle s1 L h1.1 h1.2.1 h1.2.2
    cases hcp2 : create_process "visualize pytorch model"
        (.inference_model args.model_cfg [args.checkpoint] args.img cfg.codebase "pytorch"
          args.device "output_pytorch.jpg" args.show_)
        true oracle s1 with
    | error h =>
      rw [hcp2] at h2
      simp only [exceptBind_error]
      exact h2
    | ok s2 =>
      rw [hcp2] at h2
      simp only [exceptBind_ok]
      refine ⟨h2.1, h2.2.1, ?_⟩
      refine goodEvents_append L s2.events _ h2.2.2 ?_
      intro c' fb lvl hmem
      simp at hmem

/-- The pipeline invariant: in every run, every recorded collaborator
invocation observed the shared flag at 0 and was handed the driver's
configured logging level, and on normal completion the flag is 0. -/
theorem main_good (cfg : DeployCfg) (args : Args) (oracle : Oracle) :
    GoodRes args.log_level (main cfg args oracle) := by
  rw [main]
  have hg0 : GoodEvents args.log_level [Event.flagCreate 0] := by
    intro c fb lvl hmem
    simp at hmem
  have h1 := create_process_good "torch2onnx"
    (.torch2onnx args.img args.work_dir cfg.pytorch2onnx.save_file args.deploy_cfg
      args.model_cfg args.checkpoint args.device) oracle
    { flag := 0, stepIdx := 0, loggerLevel := args.log_level, events := [.flagCreate 0] }
    args.log_level rfl rfl hg0
  cases hcp : create_process "torch2onnx"
      (.torch2onnx args.img args.work_dir cfg.pytorch2onnx.save_file args.deploy_cfg
        args.model_cfg args.checkpoint args.device) true oracle
      { flag := 0, stepIdx := 0, loggerLevel := args.log_level, events := [.flagCreate 0] } with
  | error h =>
    rw [hcp] at h1
    simp only [exceptBind_error]
    exact h1
  | ok s1 =>
    rw [hcp] at h1
    simp only [exceptBind_ok]
    have h2 := splitStage_good cfg args oracle args.log_level
      [ospJoin args.work_dir cfg.pytorch2onnx.save_file] s1 h1.1 h1.2.1 h1.2.2
    cases hsp : splitStage cfg args oracle
        [ospJoin args.work_dir cfg.pytorch2onnx.save_file] s1 with
    | error h =>
      rw [hsp] at h2
      simp only [exceptBind_error]
      exact h2
    | ok fs2 =>
      rw [hsp] at h2
      simp only [exceptBind_ok]
      obtain ⟨files2, s2⟩ := fs2
      have h3 := backendStage_good cfg args oracle args.log_level files2 s2
        h2.1 h2.2.1 h2.2.2
      cases hbs : backendStage cfg args oracle files2 s2 with
      | error h =>
        rw [hbs] at h3
        simp only [exceptBind_error]
        exact h3
      | ok fs3 =>
        rw [hbs] at h3
        simp only [exceptBind_ok]
        obtain ⟨files3, s3⟩ := fs3
        exact visStage_good cfg args oracle args.log_level files3 s3 h3.1 h3.2.1 h3.2.2

/-- The invariant restated on the observable trace of a run. -/
theorem main_goodEvents (cfg : DeployCfg) (args : Args) (oracle : Oracle) :
    GoodEvents args.log_level (eventsOf (main cfg args oracle)) := by
  have h := main_good cfg args oracle
  cases hr : main cfg args oracle with
  | ok s =>
    rw [hr] at h
    exact h.2.2
  | error hh =>
    rw [hr] at h
    exact h

/-- The shape of an abort via exit(): status 0, non-zero flag, and the
trace ending with the step's error log followed by the exit event. -/
def ExitShape (s : St) (code : Nat) : Prop :=
  code = 0 ∧ s.flag ≠ 0 ∧
    ∃ t nm, s.events = t ++ [Event.logError (nm ++ " failed."), Event.exitCall 0]

theorem create_process_exitShape (name : String) (c : Collab) (u : Bool) (oracle : Oracle)
    (s s' : St) (code : Nat)
    (h : create_process name c u oracle s = .error (.exited s' code)) :
    ExitShape s' code := by
  obtain ⟨h1, h2, t, h3⟩ := create_process_exited name c u oracle s s' code h
  exact ⟨h1, h2, t, name, h3⟩

theorem splitLoop_exitShape (work_dir origin : String) (oracle : Oracle)
    (ps : List SplitParam) :
    ∀ (acc : List String) (s s' : St) (code : Nat),
    splitLoop work_dir oracle origin ps acc s = .error (.exited s' code) →
    ExitShape s' code := by
  induction ps with
  | nil =>
    intro acc s s' code h
    simp [splitLoop] at h
  | cons p rest ih =>
    intro acc s s' code h
    rw [splitLoop] at h
    cases hcp : create_process (splitName p)
        (.extract_model origin p.start p.end_ (ospJoin work_dir p.save_file))
        true oracle s with
    | error hh =>
      rw [hcp] at h
      dsimp at h
      cases hh with
      | exited s2 c2 =>
        simp only [Except.error.injEq, Halt.exited.injEq] at h
        obtain ⟨h4, h5⟩ := h
        subst h4; subst h5
        exact create_process_exitShape _ _ _ _ _ _ _ hcp
      | assertFail s2 m =>
        exact absurd hcp (create_process_no_assert _ _ _ _ _ _ _)
    | ok s1 =>
      rw [hcp] at h
      dsimp at h
      exact ih _ _ _ _ h

theorem trtLoop_exitShape (work_dir deploy_cfg_path device : String) (oracle : Oracle)
    (mps : List ModelParam) :
    ∀ (paths : List String) (k : Nat) (acc : List String) (s s' : St) (code : Nat),
    trtLoop work_dir deploy_cfg_path device oracle k mps paths acc s =
      .error (.exited s' code) →
    ExitShape s' code := by
  induction mps with
  | nil =>
    intro paths k acc s s' code h
    simp [trtLoop] at h
  | cons mp mps ih =>
    intro paths k acc s s' code h
    cases paths with
    | nil => simp [trtLoop] at h
    | cons p paths =>
      rw [trtLoop] at h
      cases hcp : create_process ("onnx2tensorrt of " ++ p)
          (.onnx2tensorrt work_dir (trtSaveFile mp p) k deploy_cfg_path p device)
          true oracle s with
      | error hh =>
        rw [hcp] at h
        dsimp at h
        cases hh with
        | exited s2 c2 =>
          simp only [Except.error.injEq, Halt.exited.injEq] at h
          obtain ⟨h4, h5⟩ := h
          subst h4; subst h5
          exact create_process_exitShape _ _ _ _ _ _ _ hcp
        | assertFail s2 m =>
          exact absurd hcp (create_process_no_assert _ _ _ _ _ _ _)
      | ok s1 =>
        rw [hcp] at h
        dsimp at h
        exact ih _ _ _ _ _ _ h

theorem splitStage_exitShape (cfg : DeployCfg) (args : Args) (oracle : Oracle)
    (files : List String) (s s' : St) (code : Nat)
    (h : splitStage cfg args oracle files s = .error (.exited s' code)) :
    ExitShape s' code := by
  rw [splitStage] at h
  by_cases hm : cfg.apply_marks
  · simp only [hm, if_true] at h
    cases hsp : cfg.split_params with
    | none => rw [hsp] at h; simp at h
    | some ps =>
      rw [hsp] at h
      exact splitLoop_exitShape _ _ _ _ _ _ _ _ h
  · simp only [hm, if_false] at h
    simp at h

theorem backendStage_exitShape (cfg : DeployCfg) (args : Args) (oracle : Oracle)
    (files : List String) (s s' : St) (code : Nat)
    (h : backendStage cfg args oracle files s = .error (.exited s' code)) :
    ExitShape s' code := by
  rw [backendStage] at h
  by_cases hbt : cfg.backend.getD "default" = "tensorrt"
  · simp only [hbt, if_true] at h
    cases htp : cfg.tensorrt_params with
    | none => rw [htp] at h; simp at h
    | some tp =>
      rw [htp] at h
      by_cases hlen : (tp.model_params.getD []).length = files.length
      · simp only [hlen, if_true] at h
        exact trtLoop_exitShape _ _ _ _ _ _ _ _ _ _ _ h
      · simp only [hlen, if_false] at h
        simp at h
  · simp only [hbt, if_false] at h
    simp at h

theorem visStage_exitShape (cfg : DeployCfg) (args : Args) (oracle : Oracle)
    (backend_files : List String) (s s' : St) (code : Nat)
    (h : visStage cfg args oracle backend_files s = .error (.exited s' code)) :
    ExitShape s' code := by
  rw [visStage] at h
  cases hcp : create_process ("visualize " ++ cfg.backend.getD "default" ++ " model")
      (.inference_model args.model_cfg backend_files args.img cfg.codebase
        (cfg.backend.getD "default") args.device
        ("output_" ++ cfg.backend.getD "default" ++ ".jpg") args.show_)
      true oracle s with
  | error hh =>
    rw [hcp] at h
    simp only [exceptBind_error, Except.error.injEq] at h
    cases hh with
    | exited s2 c2 =>
      simp only [Halt.exited.injEq] at h
      obtain ⟨h4, h5⟩ := h
      subst h4; subst h5
      exact create_process_exitShape _ _ _ _ _ _ _ hcp
    | assertFail s2 m =>
      exact absurd hcp (create_process_no_assert _ _ _ _ _ _ _)
  | ok s1 =>
    rw [hcp] at h
    simp only [exceptBind_ok] at h
    cases hcp2 : create_process "visualize pytorch model"
        (.inference_model args.model_cfg [args.checkpoint] args.img cfg.codebase "pytorch"
          args.device "output_pytorch.jpg" args.show_)
        true oracle s1 with
    | error hh =>
      rw [hcp2] at h
      simp only [exceptBind_error, Except.error.injEq] at h
      cases hh with
      | exited s2 c2 =>
        simp only [Halt.exited.injEq] at h
        obtain ⟨h4, h5⟩ := h
        subst h4; subst h5
        exact create_process_exitShape _ _ _ _ _ _ _ hcp2
      | assertFail s2 m =>
        exact absurd hcp2 (create_process_no_assert _ _ _ _ _ _ _)
    | ok s2 =>
      rw [hcp2] at h
      simp only [exceptBind_ok] at h
      simp [pure, Except.pure] at h

/-- Whenever a run of main aborts through the result-flag check, the abort
has the exit shape: status 0, non-zero flag, error log then exit last. -/
theorem main_exitShape (cfg : DeployCfg) (args : Args) (oracle : Oracle)
    (s' : St) (code : Nat)
    (h : main cfg args oracle = .error (.exited s' code)) :
    ExitShape s' code := by
  rw [main] at h
  cases hcp : create_process "torch2onnx"
      (.torch2onnx args.img args.work_dir cfg.pytorch2onnx.save_file args.deploy_cfg
        args.model_cfg args.checkpoint args.device) true oracle
      { flag := 0, stepIdx := 0, loggerLevel := args.log_level, events := [.flagCreate 0] } with
  | error hh =>
    rw [hcp] at h
    simp only [exceptBind_error, Except.error.injEq] at h
    cases hh with
    | exited s2 c2 =>
      simp only [Halt.exited.injEq] at h
      obtain ⟨h4, h5⟩ := h
      subst h4; subst h5
      exact create_process_exitShape _ _ _ _ _ _ _ hcp
    | assertFail s2 m =>
      exact absurd hcp (create_process_no_assert _ _ _ _ _ _ _)
  | ok s1 =>
    rw [hcp] at h
    simp only [exceptBind_ok] at h
    cases hsp : splitStage cfg args oracle
        [ospJoin args.work_dir cfg.pytorch2onnx.save_file] s1 with
    | error hh =>
      rw [hsp] at h
      simp only [exceptBind_error, Except.error.injEq] at h
      cases hh with
      | exited s2 c2 =>
        simp only [Halt.exited.injEq] at h
        obtain ⟨h4, h5⟩ := h
        subst h4; subst h5
        exact splitStage_exitShape _ _ _ _ _ _ _ hsp
      | assertFail s2 m => simp at h
    | ok fs2 =>
      rw [hsp] at h
      simp only [exceptBind_ok] at h
      obtain ⟨files2, s2⟩ := fs2
      cases hbs : backendStage cfg args oracle files2 s2 with
      | error hh =>
        rw [hbs] at h
        simp only [exceptBind_error, Except.error.injEq] at h
        cases hh with
        | exited s3 c3 =>
          simp only [Halt.exited.injEq] at h
          obtain ⟨h4, h5⟩ := h
          subst h4; subst h5
          exact backendStage_exitShape _ _ _ _ _ _ _ hbs
        | assertFail s3 m => simp at h
      | ok fs3 =>
        rw [hbs] at h
        simp only [exceptBind_ok] at h
        obtain ⟨files3, s3⟩ := fs3
        exact visStage_exitShape _ _ _ _ _ _ _ h

/-- The trace of a stage result that carries a file list. -/
def eventsOfP : Except Halt (List String × St) → List Event
  | .ok (_, s) => s.events
  | .error h => eventsOf (.error h)

/-- The interpreter exit status of a run, when it ended in exit(). -/
def exitCodeOf : Except Halt St → Option Nat
  | .error (.exited _ c) => some c
  | _ => none

/-- The message of the failed assert, when the run ended in one. -/
def assertMsgOf : Except Halt St → Option String
  | .error (.assertFail _ m) => some m
  | _ => none

/-- The number of shared-flag creations recorded in a trace. -/
def flagCreates (es : List Event) : Nat :=
  (es.filter fun e => match e with
    | .flagCreate _ => true
    | _ => false).length

/-- Whatever create_process returns, its trace is the input trace extended
by the start log, the one invocation, and a tail without invocations. -/
theorem create_process_eventsOf (name : String) (c : Collab) (u : Bool) (oracle : Oracle)
    (s : St) :
    ∃ post, eventsOf (create_process name c u oracle s) =
        s.events ++ Event.logInfo (name ++ " start.") ::
          Event.invoke c s.flag s.loggerLevel :: post ∧
      invokes post = [] := by
  cases u with
  | false =>
    refine ⟨[], ?_, rfl⟩
    simp [create_process, emit, eventsOf]
  | true =>
    by_cases hnz : (oracle s.stepIdx).getD s.flag ≠ 0
    · refine ⟨[.logError (name ++ " failed."), .exitCall 0], ?_, ?_⟩
      · simp [create_process, emit, eventsOf, hnz]
      · simp [invokes]
    · refine ⟨[.logInfo (name ++ " success.")], ?_, ?_⟩
      · simp [create_process, emit, eventsOf, hnz]
      · simp [invokes]

/-- The collaborator calls a trace gains through one create_process run:
exactly the one target call. -/
theorem create_process_filter (p : Collab → Bool) (name : String) (c : Collab)
    (u : Bool) (oracle : Oracle) (s : St) :
    (invokes (eventsOf (create_process name c u oracle s))).filter p =
      (invokes s.events).filter p ++ (if p c then [c] else []) := by
  obtain ⟨post, heq, hpost⟩ := create_process_eventsOf name c u oracle s
  rw [heq]
  simp only [invokes, List.filterMap_append, List.filterMap_cons] at hpost ⊢
  simp [hpost, List.filter_append, List.filter_cons]

theorem trtLoop_filter (p : Collab → Bool)
    (hp : ∀ wd sf k dcp path dev, p (.onnx2tensorrt wd sf k dcp path dev) = false)
    (work_dir deploy_cfg_path device : String) (oracle : Oracle) (mps : List ModelParam) :
    ∀ (paths : List String) (k : Nat) (acc : List String) (s : St),
    (invokes (eventsOfP (trtLoop work_dir deploy_cfg_path device oracle k mps paths acc s))).filter p =
      (invokes s.events).filter p := by
  induction mps with
  | nil => intro paths k acc s; rw [trtLoop]; rfl
  | cons mp mps ih =>
    intro paths k acc s
    cases paths with
    | nil => rw [trtLoop]; rfl
    | cons pa paths =>
      rw [trtLoop]
      cases hcp : create_process ("onnx2tensorrt of " ++ pa)
          (.onnx2tensorrt work_dir (trtSaveFile mp pa) k deploy_cfg_path pa device)
          true oracle s with
      | error h =>
        dsimp only
        have := create_process_filter p ("onnx2tensorrt of " ++ pa)
          (.onnx2tensorrt work_dir (trtSaveFile mp pa) k deploy_cfg_path pa device)
          true oracle s
        rw [hcp] at this
        show (invokes (eventsOf (Except.error h))).filter p = _
        rw [this, hp]
        simp
      | ok s1 =>
        dsimp only
        rw [ih paths (k + 1) _ s1]
        have := create_process_filter p ("onnx2tensorrt of " ++ pa)
          (.onnx2tensorrt work_dir (trtSaveFile mp pa) k deploy_cfg_path pa device)
          true oracle s
        rw [hcp] at this
        simp only [eventsOf] at this
        rw [this, hp]
        simp

theorem backendStage_filter (p : Collab → Bool)
    (hp : ∀ wd sf k dcp path dev, p (.onnx2tensorrt wd sf k dcp path dev) = false)
    (cfg : DeployCfg) (args : Args) (oracle : Oracle) (files : List String) (s : St) :
    (invokes (eventsOfP (backendStage cfg args oracle files s))).filter p =
      (invokes s.events).filter p := by
  rw [backendStage]
  by_cases hbt : cfg.backend.getD "default" = "tensorrt"
  · simp only [hbt, if_true]
    cases htp : cfg.tensorrt_params with
    | none => rfl
    | some tp =>
      by_cases hlen : (tp.model_params.getD []).length = files.length
      · simp only [hlen, if_true]
        exact trtLoop_filter p hp _ _ _ _ _ _ _ _ _
      · simp only [hlen, if_false]
        rfl
  · simp only [hbt, if_false]
    rfl

theorem visStage_filter (p : Collab → Bool)
    (hp : ∀ mcp fs img cb b dev out sr, p (.inference_model mcp fs img cb b dev out sr) = false)
    (cfg : DeployCfg) (args : Args) (oracle : Oracle) (backend_files : List String) (s : St) :
    (invokes (eventsOf (visStage cfg args oracle backend_files s))).filter p =
      (invokes s.events).filter p := by
  rw [visStage]
  cases hcp : create_process ("visualize " ++ cfg.backend.getD "default" ++ " model")
      (.inference_model args.model_cfg backend_files args.img cfg.codebase
        (cfg.backend.getD "default") args.device
        ("output_" ++ cfg.backend.getD "default" ++ ".jpg") args.show_)
      true oracle s with
  | error h =>
    simp only [exceptBind_error]
    have := create_process_filter p ("visualize " ++ cfg.backend.getD "default" ++ " model")
      (.inference_model args.model_cfg backend_files args.img cfg.codebase
        (cfg.backend.getD "default") args.device
        ("output_" ++ cfg.backend.getD "default" ++ ".jpg") args.show_) true oracle s
    rw [hcp] at this
    rw [this, hp]
    simp
  | ok s1 =>
    simp only [exceptBind_ok]
    have h1 := create_process_filter p ("visualize " ++ cfg.backend.getD "default" ++ " model")
      (.inference_model args.model_cfg backend_files args.img cfg.codebase
        (cfg.backend.getD "default") args.device
        ("output_" ++ cfg.backend.getD "default" ++ ".jpg") args.show_) true oracle s
    rw [hcp] at h1
    simp only [eventsOf] at h1
    cases hcp2 : create_process "visualize pytorch model"
        (.inference_model args.model_cfg [args.checkpoint] args.img cfg.codebase "pytorch"
          args.device "output_pytorch.jpg" args.show_)
        true oracle s1 with
    | error h =>
      simp only [exceptBind_error]
      have h2 := create_process_filter p "visualize pytorch model"
        (.inference_model args.model_cfg [args.checkpoint] args.img cfg.codebase "pytorch"
          args.device "output_pytorch.jpg" args.show_) true oracle s1
      rw [hcp2] at h2
      rw [h2, h1, hp, hp]
      simp
    | ok s2 =>
      simp only [exceptBind_ok]
      have h2 := create_process_filter p "visualize pytorch model"
        (.inference_model args.model_cfg [args.checkpoint] args.img cfg.codebase "pytorch"
          args.device "output_pytorch.jpg" args.show_) true oracle s1
      rw [hcp2] at h2
      simp only [eventsOf] at h2
      have hlog : invokes [Event.logInfo "All process success."] = [] := by simp [invokes]
      show (invokes (emit (.logInfo "All process success.") s2).events).filter p = _
      rw [emit]
      show (invokes (s2.events ++ [Event.logInfo "All process success."])).filter p = _
      rw [invokes_append, hlog, List.append_nil]
      rw [h2, h1, hp, hp]
      simp

/-- The backend and visualization stages together add no collaborator call
satisfying p (for p rejecting compile and inference calls). -/
theorem restStages_filter (p : Collab → Bool)
    (hp : ∀ wd sf k dcp path dev, p (.onnx2tensorrt wd sf k dcp path dev) = false)
    (hp2 : ∀ mcp fs img cb b dev out sr, p (.inference_model mcp fs img cb b dev out sr) = false)
    (cfg : DeployCfg) (args : Args) (oracle : Oracle) (files : List String) (s : St) :
    (invokes (eventsOf (backendStage cfg args oracle files s >>= fun x =>
        visStage cfg args oracle x.1 x.2))).filter p =
      (invokes s.events).filter p := by
  cases hbs : backendStage cfg args oracle files s with
  | error h =>
    simp only [exceptBind_error]
    have := backendStage_filter p hp cfg args oracle files s
    rw [hbs] at this
    exact this
  | ok fs2 =>
    simp only [exceptBind_ok]
    obtain ⟨files2, s2⟩ := fs2
    have h1 := backendStage_filter p hp cfg args oracle files s
    rw [hbs] at h1
    simp only [eventsOfP] at h1
    rw [visStage_filter p hp2 cfg args oracle files2 s2]
    exact h1

/-- The split stage on the post-export singleton file list, under the
split well-formedness hypothesis: it returns the fileList of the
configuration. -/
theorem splitStage_fileList (cfg : DeployCfg) (args : Args) (oracle : Oracle)
    (hor : ∀ n, oracle n = some 0)
    (hs : cfg.apply_marks = true → cfg.split_params ≠ none)
    (s : St) (hf : s.flag = 0) :
    splitStage cfg args oracle [ospJoin args.work_dir cfg.pytorch2onnx.save_file] s =
      .ok (fileList cfg args,
        { s with
          flag := 0,
          stepIdx := s.stepIdx +
            (if cfg.apply_marks then (cfg.split_params.getD []).length else 0),
          events := s.events ++
            (if cfg.apply_marks then
              splitEvents args.work_dir (ospJoin args.work_dir cfg.pytorch2onnx.save_file)
                s.loggerLevel (cfg.split_params.getD [])
            else []) }) := by
  by_cases hm : cfg.apply_marks = true
  · obtain ⟨ps, hps⟩ := Option.ne_none_iff_exists'.mp (hs hm)
    rw [splitStage_marks cfg args oracle _ _ ps hor hf hm hps]
    simp [fileList, hm, hps]
  · have hm' : cfg.apply_marks = false := by simpa using hm
    rw [splitStage_nomarks cfg args oracle _ _ hm']
    cases s
    simp_all [fileList]

theorem trtCalls_length (work_dir deploy_cfg_path device : String) (mps : List ModelParam) :
    ∀ (paths : List String) (k : Nat), mps.length = paths.length →
    (trtCalls work_dir deploy_cfg_path device k mps paths).length = paths.length := by
  induction mps with
  | nil =>
    intro paths k hlen
    cases paths with
    | nil => rfl
    | cons p paths => simp at hlen
  | cons mp mps ih =>
    intro paths k hlen
    cases paths with
    | nil => simp at hlen
    | cons p paths =>
      simp only [trtCalls, List.length_cons]
      rw [ih paths (k + 1) (by simpa using hlen)]

theorem trtCalls_get (work_dir deploy_cfg_path device : String) (mps : List ModelParam) :
    ∀ (paths : List String) (i k : Nat) (mp : ModelParam) (path : String),
      mps.get? i = some mp → paths.get? i = some path →
    (trtCalls work_dir deploy_cfg_path device k mps paths).get? i =
      some (.onnx2tensorrt work_dir (trtSaveFile mp path) (k + i) deploy_cfg_path path device) := by
  induction mps with
  | nil => intro paths i k mp path hmp hpath; simp at hmp
  | cons mp0 mps ih =>
    intro paths i k mp path hmp hpath
    cases paths with
    | nil => simp at hpath
    | cons p0 paths =>
      cases i with
      | zero =>
        simp only [List.get?] at hmp hpath
        cases hmp; cases hpath
        simp [trtCalls]
      | succ i =>
        simp only [List.get?] at hmp hpath
        simp only [trtCalls, List.get?]
        rw [ih paths i (k + 1) mp path hmp hpath]
        have : k + 1 + i = k + (i + 1) := by omega
        rw [this]

theorem trtFiles_get (work_dir : String) (mps : List ModelParam) :
    ∀ (paths : List String) (i : Nat) (mp : ModelParam) (path : String),
      mps.get? i = some mp → paths.get? i = some path →
    (trtFiles work_dir mps paths).get? i =
      some (ospJoin work_dir (trtSaveFile mp path)) := by
  induction mps with
  | nil => intro paths i mp path hmp hpath; simp at hmp
  | cons mp0 mps ih =>
    intro paths i mp path hmp hpath
    cases paths with
    | nil => simp at hpath
    | cons p0 paths =>
      cases i with
      | zero =>
        simp only [List.get?] at hmp hpath
        cases hmp; cases hpath
        simp [trtFiles]
      | succ i =>
        simp only [List.get?] at hmp hpath
        simp only [trtFiles, List.get?]
        exact ih paths i mp path hmp hpath

theorem create_process_flagCreates (name : String) (c : Collab) (u : Bool) (oracle : Oracle)
    (s : St) :
    flagCreates (eventsOf (create_process name c u oracle s)) = flagCreates s.events := by
  cases u with
  | false => simp [create_process, emit, eventsOf, flagCreates, List.filter_append]
  | true =>
    by_cases hnz : (oracle s.stepIdx).getD s.flag ≠ 0 <;>
      simp [create_process, emit, eventsOf, flagCreates, hnz, List.filter_append]

theorem splitLoop_flagCreates (work_dir origin : String) (oracle : Oracle)
    (ps : List SplitParam) :
    ∀ (acc : List String) (s : St),
    flagCreates (eventsOfP (splitLoop work_dir oracle origin ps acc s)) =
      flagCreates s.events := by
  induction ps with
  | nil => intro acc s; rw [splitLoop]; rfl
  | cons p rest ih =>
    intro acc s
    rw [splitLoop]
    cases hcp : create_process (splitName p)
        (.extract_model origin p.start p.end_ (ospJoin work_dir p.save_file))
        true oracle s with
    | error h =>
      dsimp only
      have := create_process_flagCreates (splitName p)
        (.extract_model origin p.start p.end_ (ospJoin work_dir p.save_file)) true oracle s
      rw [hcp] at this
      exact this
    | ok s1 =>
      dsimp only
      rw [ih _ s1]
      have := create_process_flagCreates (splitName p)
        (.extract_model origin p.start p.end_ (ospJoin work_dir p.save_file)) true oracle s
      rw [hcp] at this
      exact this

theorem trtLoop_flagCreates (work_dir deploy_cfg_path device : String) (oracle : Oracle)
    (mps : List ModelParam) :
    ∀ (paths : List String) (k : Nat) (acc : List String) (s : St),
    flagCreates (eventsOfP (trtLoop work_dir deploy_cfg_path device oracle k mps paths acc s)) =
      flagCreates s.events := by
  induction mps with
  | nil => intro paths k acc s; rw [trtLoop]; rfl
  | cons mp mps ih =>
    intro paths k acc s
    cases paths with
    | nil => rw [trtLoop]; rfl
    | cons pa paths =>
      rw [trtLoop]
      cases hcp : create_process ("onnx2tensorrt of " ++ pa)
          (.onnx2tensorrt work_dir (trtSaveFile mp pa) k deploy_cfg_path pa device)
          true oracle s with
      | error h =>
        dsimp only
        have := create_process_flagCreates ("onnx2tensorrt of " ++ pa)
          (.onnx2tensorrt work_dir (trtSaveFile mp pa) k deploy_cfg_path pa device) true oracle s
        rw [hcp] at this
        exact this
      | ok s1 =>
        dsimp only
        rw [ih paths (k + 1) _ s1]
        have := create_process_flagCreates ("onnx2tensorrt of " ++ pa)
          (.onnx2tensorrt work_dir (trtSaveFile mp pa) k deploy_cfg_path pa device) true oracle s
        rw [hcp] at this
        exact this

theorem splitStage_flagCreates (cfg : DeployCfg) (args : Args) (oracle : Oracle)
    (files : List String) (s : St) :
    flagCreates (eventsOfP (splitStage cfg args oracle files s)) = flagCreates s.events := by
  rw [splitStage]
  by_cases hm : cfg.apply_marks
  · simp only [hm, if_true]
    cases hsp : cfg.split_params with
    | none => rfl
    | some ps => exact splitLoop_flagCreates _ _ _ _ _ _
  · simp only [hm, if_false]
    rfl

theorem backendStage_flagCreates (cfg : DeployCfg) (args : Args) (oracle : Oracle)
    (files : List String) (s : St) :
    flagCreates (eventsOfP (backendStage cfg args oracle files s)) = flagCreates s.events := by
  rw [backendStage]
  by_cases hbt : cfg.backend.getD "default" = "tensorrt"
  · simp only [hbt, if_true]
    cases htp : cfg.tensorrt_params with
    | none => rfl
    | some tp =>
      by_cases hlen : (tp.model_params.getD []).length = files.length
      · simp only [hlen, if_true]
        exact trtLoop_flagCreates _ _ _ _ _ _ _ _ _
      · simp only [hlen, if_false]
        rfl
  · simp only [hbt, if_false]
    rfl

theorem visStage_flagCreates (cfg : DeployCfg) (args : Args) (oracle : Oracle)
    (backend_files : List String) (s : St) :
    flagCreates (eventsOf (visStage cfg args oracle backend_files s)) =
      flagCreates s.events := by
  rw [visStage]
  cases hcp : create_process ("visualize " ++ cfg.backend.getD "default" ++ " model")
      (.inference_model args.model_cfg backend_files args.img cfg.codebase
        (cfg.backend.getD "default") args.device
        ("output_" ++ cfg.backend.getD "default" ++ ".jpg") args.show_)
      true oracle s with
  | error h =>
    simp only [exceptBind_error]
    have := create_process_flagCreates ("visualize " ++ cfg.backend.getD "default" ++ " model")
      (.inference_model args.model_cfg backend_files args.img cfg.codebase
        (cfg.backend.getD "default") args.device
        ("output_" ++ cfg.backend.getD "default" ++ ".jpg") args.show_) true oracle s
    rw [hcp] at this
    exact this
  | ok s1 =>
    simp only [exceptBind_ok]
    have h1 := create_process_flagCreates ("visualize " ++ cfg.backend.getD "default" ++ " model")
      (.inference_model args.model_cfg backend_files args.img cfg.codebase
        (cfg.backend.getD "default") args.device
        ("output_" ++ cfg.backend.getD "default" ++ ".jpg") args.show_) true oracle s
    rw [hcp] at h1
    simp only [eventsOf] at h1
    cases hcp2 : create_process "visualize pytorch model"
        (.inference_model args.model_cfg [args.checkpoint] args.img cfg.codebase "pytorch"
          args.device "output_pytorch.jpg" args.show_)
        true oracle s1 with
    | error h =>
      simp only [exceptBind_error]
      have h2 := create_process_flagCreates "visualize pytorch model"
        (.inference_model args.model_cfg [args.checkpoint] args.img cfg.codebase "pytorch"
          args.device "output_pytorch.jpg" args.show_) true oracle s1
      rw [hcp2] at h2
      rw [h2, h1]
    | ok s2 =>
      simp only [exceptBind_ok]
      have h2 := create_process_flagCreates "visualize pytorch model"
        (.inference_model args.model_cfg [args.checkpoint] args.img cfg.codebase "pytorch"
          args.device "output_pytorch.jpg" args.show_) true oracle s1
      rw [hcp2] at h2
      simp only [eventsOf] at h2
      show flagCreates (emit (.logInfo "All process success.") s2).events = _
      rw [emit]
      simp only [flagCreates, List.filter_append] at h2 h1 ⊢
      simp [h2, h1]

/-- Every run creates the shared result flag exactly once: at line 80,
before the first step; no later reset or re-creation ever happens. -/
theorem main_flagCreates (cfg : DeployCfg) (args : Args) (oracle : Oracle) :
    flagCreates (eventsOf (main cfg args oracle)) = 1 := by
  rw [main]
  cases hcp : create_process "torch2onnx"
      (.torch2onnx args.img args.work_dir cfg.pytorch2onnx.save_file args.deploy_cfg
        args.model_cfg args.checkpoint args.device) true oracle
      { flag := 0, stepIdx := 0, loggerLevel := args.log_level, events := [.flagCreate 0] } with
  | error h =>
    simp only [exceptBind_error]
    have := create_process_flagCreates "torch2onnx"
      (.torch2onnx args.img args.work_dir cfg.pytorch2onnx.save_file args.deploy_cfg
        args.model_cfg args.checkpoint args.device) true oracle
      { flag := 0, stepIdx := 0, loggerLevel := args.log_level, events := [.flagCreate 0] }
    rw [hcp] at this
    rw [this]
    rfl
  | ok s1 =>
    simp only [exceptBind_ok]
    have h1 := create_process_flagCreates "torch2onnx"
      (.torch2onnx args.img args.work_dir cfg.pytorch2onnx.save_file args.deploy_cfg
        args.model_cfg args.checkpoint args.device) true oracle
      { flag := 0, stepIdx := 0, loggerLevel := args.log_level, events := [.flagCreate 0] }
    rw [hcp] at h1
    simp only [eventsOf] at h1
    cases hsp : splitStage cfg args oracle
        [ospJoin args.work_dir cfg.pytorch2onnx.save_file] s1 with
    | error h =>
      simp only [exceptBind_error]
      have h2 := splitStage_flagCreates cfg args oracle
        [ospJoin args.work_dir cfg.pytorch2onnx.save_file] s1
      rw [hsp] at h2
      rw [show eventsOf (Except.error h) = eventsOfP (Except.error h) from rfl]
      rw [h2, h1]
      rfl
    | ok fs2 =>
      simp only [exceptBind_ok]
      obtain ⟨files2, s2⟩ := fs2
      have h2 := splitStage_flagCreates cfg args oracle
        [ospJoin args.work_dir cfg.pytorch2onnx.save_file] s1
      rw [hsp] at h2
      simp only [eventsOfP] at h2
      cases hbs : backendStage cfg args oracle files2 s2 with
      | error h =>
        simp only [exceptBind_error]
        have h3 := backendStage_flagCreates cfg args oracle files2 s2
        rw [hbs] at h3
        rw [show eventsOf (Except.error h) = eventsOfP (Except.error h) from rfl]
        rw [h3, h2, h1]
        rfl
      | ok fs3 =>
        simp only [exceptBind_ok]
        obtain ⟨files3, s3⟩ := fs3
        have h3 := backendStage_flagCreates cfg args oracle files2 s2
        rw [hbs] at h3
        simp only [eventsOfP] at h3
        rw [visStage_flagCreates cfg args oracle files3 s3, h3, h2, h1]
        rfl

instance decEqExcept {ε α : Type} [DecidableEq ε] [DecidableEq α] :
    DecidableEq (Except ε α)
  | .error a, .error b =>
    if h : a = b then .isTrue (by rw [h]) else .isFalse (by simp [h])
  | .error _, .ok _ => .isFalse (by simp)
  | .ok _, .error _ => .isFalse (by simp)
  | .ok a, .ok b =>
    if h : a = b then .isTrue (by rw [h]) else .isFalse (by simp [h])

/-- A concrete argument set for witnesses: INFO logging level (20). -/
def exArgs : Args :=
  { deploy_cfg := "d.py", model_cfg := "m.py", checkpoint := "ckpt.pth", img := "demo.jpg",
    work_dir := "work", device := "cpu", log_level := 20, show_ := false }

/-- A concrete minimal configuration: no marks, default backend. -/
def exCfg : DeployCfg :=
  { pytorch2onnx := ⟨"model.onnx"⟩, apply_marks := false, split_params := none,
    backend := none, tensorrt_params := none, codebase := "mmdet" }

/-- The oracle of a run on which every worker writes 0 (success). -/
def okOracle : Oracle := fun _ => some 0

/-- The oracle of a run whose every worker writes 1 (failure). -/
def failOracle : Oracle := fun _ => some 1

/-- The driver state at the moment exit() fires when the first worker of
the minimal configuration writes 1. -/
def cexSt : St :=
  { flag := 1, stepIdx := 1, loggerLevel := 20,
    events := [.flagCreate 0, .logInfo "torch2onnx start.",
      .invoke (.torch2onnx "demo.jpg" "work" "model.onnx" "d.py" "m.py" "ckpt.pth" "cpu") 0 20,
      .logError "torch2onnx failed.", .exitCall 0] }

/-- C1, counterexample: a run whose first step fails does log the error and
terminate immediately, but the interpreter exit status is 0 (Python's bare
exit() raises SystemExit None), not a non-zero-ish value as claimed. -/
theorem C1_counterexample :
    Event.logError "torch2onnx failed." ∈ eventsOf (main exCfg exArgs failOracle) ∧
      exitCodeOf (main exCfg exArgs failOracle) = some 0 := by
  constructor
  · decide
  · decide

/-- C1, amended: whenever a run of main terminates through the result-flag
check, the shared flag was non-zero, the trace ends with the step's error
log immediately followed by the exit event (so no later collaborator is
ever invoked), and the interpreter exit status is 0, not non-zero. -/
theorem C1_exit_zero (cfg : DeployCfg) (args : Args) (oracle : Oracle)
    (s : St) (code : Nat)
    (h : main cfg args oracle = .error (.exited s code)) :
    code = 0 ∧ s.flag ≠ 0 ∧
      ∃ t nm, s.events = t ++ [Event.logError (nm ++ " failed."), Event.exitCall 0] :=
  main_exitShape cfg args oracle s code h

/-- Witness for C1_exit_zero at the concrete failing run. -/
theorem C1_exit_zero_witness :
    main exCfg exArgs failOracle = .error (.exited cexSt 0) ∧
      (0 = 0 ∧ cexSt.flag ≠ 0 ∧
        ∃ t nm, cexSt.events = t ++ [Event.logError (nm ++ " failed."), Event.exitCall 0]) :=
  ⟨by decide, C1_exit_zero exCfg exArgs failOracle cexSt 0 (by decide)⟩

/-- C2, counterexample: a successful three-step run records exactly one
creation of the shared flag while all three steps use it, so the flag is
neither freshly created nor reset by the driver before each step (the
driver never writes the flag at all: only workers do). -/
theorem C2_counterexample :
    flagCreates (eventsOf (main exCfg exArgs okOracle)) = 1 ∧
      (invokes (eventsOf (main exCfg exArgs okOracle))).length = 3 := by
  constructor
  · decide
  · decide

/-- C2, amended: the flag is created exactly once per run, initialized to
0, and never reset by the driver; nevertheless every step that uses it
observes value 0 when its worker is spawned, because a step that leaves
the flag non-zero terminates the pipeline before any further spawn. -/
theorem C2_flag_zero_invariant (cfg : DeployCfg) (args : Args) (oracle : Oracle)
    (c : Collab) (fb : Int) (lvl : Nat)
    (hmem : Event.invoke c fb lvl ∈ eventsOf (main cfg args oracle)) :
    flagCreates (eventsOf (main cfg args oracle)) = 1 ∧ fb = 0 :=
  ⟨main_flagCreates cfg args oracle, (main_goodEvents cfg args oracle c fb lvl hmem).1⟩

/-- Witness for C2_flag_zero_invariant at the first invocation of the
minimal successful run. -/
theorem C2_flag_zero_invariant_witness :
    Event.invoke (.torch2onnx "demo.jpg" "work" "model.onnx" "d.py" "m.py" "ckpt.pth" "cpu")
        0 20 ∈ eventsOf (main exCfg exArgs okOracle) ∧
      (flagCreates (eventsOf (main exCfg exArgs okOracle)) = 1 ∧ (0 : Int) = 0) :=
  ⟨by decide, C2_flag_zero_invariant exCfg exArgs okOracle
    (.torch2onnx "demo.jpg" "work" "model.onnx" "d.py" "m.py" "ckpt.pth" "cpu") 0 20 (by decide)⟩

/-- C9: every worker spawn records the driver's configured logging level as
the level captured by create_process, and target_wrapper sets the worker
root logger to exactly that level before the target function runs,
whatever level the fresh worker started with. -/
theorem C9_worker_log_level (cfg : DeployCfg) (args : Args) (oracle : Oracle)
    (c : Collab) (fb : Int) (lvl w0 : Nat)
    (hmem : Event.invoke c fb lvl ∈ eventsOf (main cfg args oracle)) :
    lvl = args.log_level ∧
      levelAtTargetRun w0 (target_wrapper_ops lvl) = some lvl :=
  ⟨(main_goodEvents cfg args oracle c fb lvl hmem).2, rfl⟩

/-- Witness for C9_worker_log_level at the first invocation of the minimal
successful run, with a worker starting at the default WARNING level 30. -/
theorem C9_worker_log_level_witness :
    Event.invoke (.torch2onnx "demo.jpg" "work" "model.onnx" "d.py" "m.py" "ckpt.pth" "cpu")
        0 20 ∈ eventsOf (main exCfg exArgs okOracle) ∧
      (20 = exArgs.log_level ∧ levelAtTargetRun 30 (target_wrapper_ops 20) = some 20) :=
  ⟨by decide, C9_worker_log_level exCfg exArgs okOracle
    (.torch2onnx "demo.jpg" "work" "model.onnx" "d.py" "m.py" "ckpt.pth" "cpu") 0 20 30 (by decide)⟩

/-- C10: when create_process is called without a result flag, it returns
normally whatever the worker wrote, and the only events it adds are the
start log and the invocation: no success log, no failure log, no exit. -/
theorem C10_no_flag_no_check (name : String) (c : Collab) (oracle : Oracle) (s : St) :
    create_process name c false oracle s =
      .ok { s with
            flag := (oracle s.stepIdx).getD s.flag, stepIdx := s.stepIdx + 1,
            events := s.events ++
              [.logInfo (name ++ " start."), .invoke c s.flag s.loggerLevel] } := by
  simp [create_process, emit]

/-- C6: with apply_marks set but no split_params section, the run stops
with the hasattr assertion error (after the export step, which does not
depend on split configuration) and no split collaborator is ever invoked. -/
theorem C6_missing_split_params (cfg : DeployCfg) (args : Args) (oracle : Oracle)
    (h0 : oracle 0 = some 0) (hm : cfg.apply_marks = true) (hsp : cfg.split_params = none) :
    assertMsgOf (main cfg args oracle) = some "hasattr(deploy_cfg, split_params)" ∧
      (invokes (eventsOf (main cfg args oracle))).filter isExtractC = [] := by
  have hcp : create_process "torch2onnx"
      (.torch2onnx args.img args.work_dir cfg.pytorch2onnx.save_file args.deploy_cfg
        args.model_cfg args.checkpoint args.device) true oracle
      { flag := 0, stepIdx := 0, loggerLevel := args.log_level, events := [.flagCreate 0] } =
      .ok { flag := 0, stepIdx := 0 + 1, loggerLevel := args.log_level,
            events := [Event.flagCreate 0] ++
              stepEvents "torch2onnx"
                (.torch2onnx args.img args.work_dir cfg.pytorch2onnx.save_file args.deploy_cfg
                  args.model_cfg args.checkpoint args.device) 0 args.log_level } := by
    simp [create_process, emit, h0, stepEvents]
  rw [main, hcp, exceptBind_ok]
  dsimp only
  rw [splitStage_missing cfg args oracle _ _ hm hsp]
  rw [exceptBind_error]
  refine ⟨rfl, ?_⟩
  show ((invokes ([Event.flagCreate 0] ++
      stepEvents "torch2onnx"
        (.torch2onnx args.img args.work_dir cfg.pytorch2onnx.save_file args.deploy_cfg
          args.model_cfg args.checkpoint args.device) 0 args.log_level)).filter isExtractC) = []
  rw [invokes_append, invokes_stepEvents]
  simp [invokes, isExtractC]

/-- A configuration with apply_marks set and no split_params section. -/
def cfgC6 : DeployCfg :=
  { pytorch2onnx := ⟨"model.onnx"⟩, apply_marks := true, split_params := none,
    backend := none, tensorrt_params := none, codebase := "mmdet" }

/-- Witness for C6_missing_split_params at the concrete misconfiguration. -/
theorem C6_missing_split_params_witness :
    okOracle 0 = some 0 ∧ cfgC6.apply_marks = true ∧ cfgC6.split_params = none ∧
      (assertMsgOf (main cfgC6 exArgs okOracle) = some "hasattr(deploy_cfg, split_params)" ∧
        (invokes (eventsOf (main cfgC6 exArgs okOracle))).filter isExtractC = []) :=
  ⟨rfl, rfl, rfl, C6_missing_split_params cfgC6 exArgs okOracle rfl rfl rfl⟩

/-- The collaborator calls of a fully successful run, in order: the export,
the optional splits, the optional backend compiles, and the two
visualizations. -/
theorem invokes_mainEvents (cfg : DeployCfg) (args : Args) :
    invokes (mainEvents cfg args) =
      Collab.torch2onnx args.img args.work_dir cfg.pytorch2onnx.save_file args.deploy_cfg
          args.model_cfg args.checkpoint args.device ::
        ((if cfg.apply_marks then
            splitCalls args.work_dir (ospJoin args.work_dir cfg.pytorch2onnx.save_file)
              (cfg.split_params.getD [])
          else []) ++
          (if cfg.backend.getD "default" = "tensorrt" then
            trtCalls args.work_dir args.deploy_cfg args.device 0
              ((cfg.tensorrt_params.getD ⟨none⟩).model_params.getD []) (fileList cfg args)
          else []) ++
          [.inference_model args.model_cfg (backendFileList cfg args) args.img cfg.codebase
            (cfg.backend.getD "default") args.device
            ("output_" ++ cfg.backend.getD "default" ++ ".jpg") args.show_,
           .inference_model args.model_cfg [args.checkpoint] args.img cfg.codebase "pytorch"
            args.device "output_pytorch.jpg" args.show_]) := by
  have hnil : invokes [] = [] := rfl
  have hfc : invokes [Event.flagCreate 0] = [] := rfl
  rw [mainEvents]
  rw [invokes_append, invokes_append, invokes_append, invokes_append]
  rw [invokes_stepEvents, invokes_visEvents]
  by_cases hm : cfg.apply_marks = true <;> by_cases hbt : cfg.backend.getD "default" = "tensorrt" <;>
    simp [hm, hbt, invokes_splitEvents, invokes_trtEvents, hnil, hfc]

/-- C5: for any backend other than tensorrt, the file list handed to the
first visualization equals the intermediate file list unchanged, and no
backend-compile invocation occurs anywhere in the run. -/
theorem C5_backend_passthrough (cfg : DeployCfg) (args : Args) (oracle : Oracle)
    (hor : ∀ n, oracle n = some 0)
    (hs : cfg.apply_marks = true → cfg.split_params ≠ none)
    (hb : cfg.backend.getD "default" ≠ "tensorrt") :
    infFilesOf (invokes (eventsOf (main cfg args oracle))) =
        [fileList cfg args, [args.checkpoint]] ∧
      (invokes (eventsOf (main cfg args oracle))).filter isTrtC = [] := by
  rw [main_succ cfg args oracle hor hs (fun hbt => absurd hbt hb)]
  have hbfl : backendFileList cfg args = fileList cfg args := by
    rw [backendFileList, if_neg hb]
  show infFilesOf (invokes (mainEvents cfg args)) = _ ∧
    (invokes (mainEvents cfg args)).filter isTrtC = []
  rw [invokes_mainEvents, hbfl, if_neg hb]
  constructor
  · by_cases hm : cfg.apply_marks = true
    · have h1 := infFilesOf_splitCalls args.work_dir
        (ospJoin args.work_dir cfg.pytorch2onnx.save_file) (cfg.split_params.getD [])
      simp only [infFilesOf] at h1 ⊢
      simp [hm, h1]
    · simp only [infFilesOf]
      simp [hm]
  · by_cases hm : cfg.apply_marks = true
    · simp [hm, List.filter_cons, List.filter_append, filter_isTrtC_splitCalls, isTrtC]
    · simp [hm, List.filter_cons, List.filter_append, isTrtC]

/-- Witness for C5_backend_passthrough at the minimal configuration. -/
theorem C5_backend_passthrough_witness :
    infFilesOf (invokes (eventsOf (main exCfg exArgs okOracle))) =
        [fileList exCfg exArgs, [exArgs.checkpoint]] ∧
      (invokes (eventsOf (main exCfg exArgs okOracle))).filter isTrtC = [] :=
  C5_backend_passthrough exCfg exArgs okOracle (fun _ => rfl) (by decide) (by decide)

/-- The driver state after a successful export step. -/
def postExportSt (cfg : DeployCfg) (args : Args) : St :=
  { flag := 0, stepIdx := 0 + 1, loggerLevel := args.log_level,
    events := [.flagCreate 0] ++
      stepEvents "torch2onnx"
        (.torch2onnx args.img args.work_dir cfg.pytorch2onnx.save_file args.deploy_cfg
          args.model_cfg args.checkpoint args.device) 0 args.log_level }

/-- C3: with apply_marks set and N split entries, the run's split
invocations are exactly the N calls in declaration order, each handing the
extract collaborator the post-export file and that entry's boundaries, and
the split stage replaces the singleton post-export file list by exactly the
N joined save_file paths in order. -/
theorem C3_split_invocations (cfg : DeployCfg) (args : Args) (oracle : Oracle)
    (ps : List SplitParam)
    (hor : ∀ n, oracle n = some 0)
    (hm : cfg.apply_marks = true) (hsp : cfg.split_params = some ps) :
    (invokes (eventsOf (main cfg args oracle))).filter isExtractC =
        splitCalls args.work_dir (ospJoin args.work_dir cfg.pytorch2onnx.save_file) ps ∧
      ((invokes (eventsOf (main cfg args oracle))).filter isExtractC).length = ps.length ∧
      Except.map Prod.fst
          (splitStage cfg args oracle [ospJoin args.work_dir cfg.pytorch2onnx.save_file]
            (postExportSt cfg args)) =
        .ok (ps.map fun p => ospJoin args.work_dir p.save_file) := by
  have hpart1 : (invokes (eventsOf (main cfg args oracle))).filter isExtractC =
      splitCalls args.work_dir (ospJoin args.work_dir cfg.pytorch2onnx.save_file) ps := by
    rw [main]
    rw [create_process_succ _ _ _ _ hor]
    rw [exceptBind_ok]
    dsimp only
    rw [splitStage_marks cfg args oracle _ _ ps hor rfl hm hsp]
    rw [exceptBind_ok]
    dsimp only
    set files2 := ps.map (fun p => ospJoin args.work_dir p.save_file) with hfiles2
    set s2 : St :=
      { flag := 0, stepIdx := 0 + 1 + ps.length, loggerLevel := args.log_level,
        events := ([Event.flagCreate 0] ++
            stepEvents "torch2onnx"
              (.torch2onnx args.img args.work_dir cfg.pytorch2onnx.save_file args.deploy_cfg
                args.model_cfg args.checkpoint args.device) 0 args.log_level) ++
          splitEvents args.work_dir
            ([ospJoin args.work_dir cfg.pytorch2onnx.save_file].headD "")
            args.log_level ps } with hs2
    cases hbs : backendStage cfg args oracle files2 s2 with
    | error h =>
      rw [exceptBind_error]
      have hb1 := backendStage_filter isExtractC (fun _ _ _ _ _ _ => rfl)
        cfg args oracle files2 s2
      rw [hbs] at hb1
      rw [show eventsOf (Except.error h) = eventsOfP (Except.error h) from rfl, hb1]
      rw [hs2]
      rw [invokes_append, invokes_append, invokes_stepEvents,
        invokes_splitEvents]
      simp [invokes, List.filter_append, isExtractC, filter_isExtractC_splitCalls]
    | ok fs3 =>
      rw [exceptBind_ok]
      obtain ⟨files3, s3⟩ := fs3
      dsimp only
      rw [visStage_filter isExtractC (fun _ _ _ _ _ _ _ _ => rfl) cfg args oracle files3 s3]
      have hb1 := backendStage_filter isExtractC (fun _ _ _ _ _ _ => rfl)
        cfg args oracle files2 s2
      rw [hbs] at hb1
      simp only [eventsOfP] at hb1
      rw [hb1]
      rw [invokes_append, invokes_append, invokes_stepEvents,
        invokes_splitEvents]
      simp [invokes, List.filter_append, isExtractC, filter_isExtractC_splitCalls]
  refine ⟨hpart1, ?_, ?_⟩
  · rw [hpart1, splitCalls, List.length_map]
  · rw [splitStage_marks cfg args oracle _ _ ps hor rfl hm hsp]
    rfl

/-- A configuration with two split entries and default backend. -/
def cfgC3 : DeployCfg :=
  { pytorch2onnx := ⟨"model.onnx"⟩, apply_marks := true,
    split_params := some [⟨"part0.onnx", "mark_a", "mark_b"⟩,
      ⟨"part1.onnx", "mark_b", "mark_c"⟩],
    backend := none, tensorrt_params := none, codebase := "mmdet" }

/-- Witness for C3_split_invocations at a two-entry split configuration. -/
theorem C3_split_invocations_witness :
    (invokes (eventsOf (main cfgC3 exArgs okOracle))).filter isExtractC =
        splitCalls exArgs.work_dir (ospJoin exArgs.work_dir cfgC3.pytorch2onnx.save_file)
          [⟨"part0.onnx", "mark_a", "mark_b"⟩, ⟨"part1.onnx", "mark_b", "mark_c"⟩] ∧
      ((invokes (eventsOf (main cfgC3 exArgs okOracle))).filter isExtractC).length = 2 ∧
      Except.map Prod.fst
          (splitStage cfgC3 exArgs okOracle
            [ospJoin exArgs.work_dir cfgC3.pytorch2onnx.save_file]
            (postExportSt cfgC3 exArgs)) =
        .ok ([⟨"part0.onnx", "mark_a", "mark_b"⟩,
          (⟨"part1.onnx", "mark_b", "mark_c"⟩ : SplitParam)].map
            fun p => ospJoin exArgs.work_dir p.save_file) :=
  C3_split_invocations cfgC3 exArgs okOracle
    [⟨"part0.onnx", "mark_a", "mark_b"⟩, ⟨"part1.onnx", "mark_b", "mark_c"⟩]
    (fun _ => rfl) rfl rfl

/-- Appending constant strings around distinct backend names keeps the
output filenames distinct. -/
theorem output_name_inj (b : String) (hb : b ≠ "pytorch") :
    "output_" ++ b ++ ".jpg" ≠ "output_pytorch.jpg" := by
  intro h
  apply hb
  apply String.ext
  have hd := congrArg String.data h
  rw [String.data_append, String.data_append] at hd
  have hlit : ("output_pytorch.jpg" : String).data =
      ("output_" : String).data ++ (("pytorch" : String).data ++ (".jpg" : String).data) := by
    decide
  rw [hlit, List.append_assoc] at hd
  exact List.append_cancel_right (List.append_cancel_left hd)

/-- The three projections of the two visualization invocations of a fully
successful run: their backend tags, output filenames and file lists. -/
theorem main_inf_projections (cfg : DeployCfg) (args : Args) (oracle : Oracle)
    (hor : ∀ n, oracle n = some 0)
    (hs : cfg.apply_marks = true → cfg.split_params ≠ none)
    (hb : cfg.backend.getD "default" = "tensorrt" →
      cfg.tensorrt_params ≠ none ∧
        ((cfg.tensorrt_params.getD ⟨none⟩).model_params.getD []).length =
          (fileList cfg args).length) :
    infBackendsOf (invokes (eventsOf (main cfg args oracle))) =
        [cfg.backend.getD "default", "pytorch"] ∧
      infOutputsOf (invokes (eventsOf (main cfg args oracle))) =
        ["output_" ++ cfg.backend.getD "default" ++ ".jpg", "output_pytorch.jpg"] ∧
      infFilesOf (invokes (eventsOf (main cfg args oracle))) =
        [backendFileList cfg args, [args.checkpoint]] := by
  rw [main_succ cfg args oracle hor hs hb]
  show infBackendsOf (invokes (mainEvents cfg args)) = _ ∧
    infOutputsOf (invokes (mainEvents cfg args)) = _ ∧
    infFilesOf (invokes (mainEvents cfg args)) = _
  rw [invokes_mainEvents]
  refine ⟨?_, ?_, ?_⟩
  · have hsp1 := infBackendsOf_splitCalls args.work_dir
      (ospJoin args.work_dir cfg.pytorch2onnx.save_file) (cfg.split_params.getD [])
    have htr1 := infBackendsOf_trtCalls args.work_dir args.deploy_cfg args.device
      ((cfg.tensorrt_params.getD ⟨none⟩).model_params.getD []) 0 (fileList cfg args)
    simp only [infBackendsOf] at hsp1 htr1 ⊢
    by_cases hm : cfg.apply_marks = true <;>
      by_cases hbt : cfg.backend.getD "default" = "tensorrt" <;>
        simp [hm, hbt, hsp1, htr1]
  · have hsp1 := infOutputsOf_splitCalls args.work_dir
      (ospJoin args.work_dir cfg.pytorch2onnx.save_file) (cfg.split_params.getD [])
    have htr1 := infOutputsOf_trtCalls args.work_dir args.deploy_cfg args.device
      ((cfg.tensorrt_params.getD ⟨none⟩).model_params.getD []) 0 (fileList cfg args)
    simp only [infOutputsOf] at hsp1 htr1 ⊢
    by_cases hm : cfg.apply_marks = true <;>
      by_cases hbt : cfg.backend.getD "default" = "tensorrt" <;>
        simp [hm, hbt, hsp1, htr1]
  · have hsp1 := infFilesOf_splitCalls args.work_dir
      (ospJoin args.work_dir cfg.pytorch2onnx.save_file) (cfg.split_params.getD [])
    have htr1 := infFilesOf_trtCalls args.work_dir args.deploy_cfg args.device
      ((cfg.tensorrt_params.getD ⟨none⟩).model_params.getD []) 0 (fileList cfg args)
    simp only [infFilesOf] at hsp1 htr1 ⊢
    by_cases hm : cfg.apply_marks = true <;>
      by_cases hbt : cfg.backend.getD "default" = "tensorrt" <;>
        simp [hm, hbt, hsp1, htr1]

/-- A configuration whose backend identifier is the literal pytorch. -/
def cfgP : DeployCfg :=
  { pytorch2onnx := ⟨"model.onnx"⟩, apply_marks := false, split_params := none,
    backend := some "pytorch", tensorrt_params := none, codebase := "mmdet" }

/-- C7, counterexample: with backend set to the literal pytorch, the fully
successful run performs its two visualization invocations with the SAME
output filename, so the two output filenames are not always distinct. -/
theorem C7_counterexample :
    infOutputsOf (invokes (eventsOf (main cfgP exArgs okOracle))) =
      ["output_pytorch.jpg", "output_pytorch.jpg"] := by
  decide

/-- C7, amended: every fully successful run performs exactly two
visualization invocations, the first on the backend files tagged with the
configured backend writing output_(backend).jpg, the second on the original
checkpoint tagged pytorch writing output_pytorch.jpg; the two filenames are
distinct whenever the configured backend identifier is not itself the
literal pytorch (for backend pytorch both invocations write
output_pytorch.jpg). -/
theorem C7_two_visualizations (cfg : DeployCfg) (args : Args) (oracle : Oracle)
    (hor : ∀ n, oracle n = some 0)
    (hs : cfg.apply_marks = true → cfg.split_params ≠ none)
    (hb : cfg.backend.getD "default" = "tensorrt" →
      cfg.tensorrt_params ≠ none ∧
        ((cfg.tensorrt_params.getD ⟨none⟩).model_params.getD []).length =
          (fileList cfg args).length) :
    infBackendsOf (invokes (eventsOf (main cfg args oracle))) =
        [cfg.backend.getD "default", "pytorch"] ∧
      infOutputsOf (invokes (eventsOf (main cfg args oracle))) =
        ["output_" ++ cfg.backend.getD "default" ++ ".jpg", "output_pytorch.jpg"] ∧
      infFilesOf (invokes (eventsOf (main cfg args oracle))) =
        [backendFileList cfg args, [args.checkpoint]] ∧
      (cfg.backend.getD "default" ≠ "pytorch" →
        "output_" ++ cfg.backend.getD "default" ++ ".jpg" ≠ "output_pytorch.jpg") := by
  obtain ⟨h1, h2, h3⟩ := main_inf_projections cfg args oracle hor hs hb
  exact ⟨h1, h2, h3, fun hbp => output_name_inj _ hbp⟩

/-- Witness for C7_two_visualizations at the minimal configuration (whose
backend tag is the string default). -/
theorem C7_two_visualizations_witness :
    infBackendsOf (invokes (eventsOf (main exCfg exArgs okOracle))) =
        [exCfg.backend.getD "default", "pytorch"] ∧
      infOutputsOf (invokes (eventsOf (main exCfg exArgs okOracle))) =
        ["output_" ++ exCfg.backend.getD "default" ++ ".jpg", "output_pytorch.jpg"] ∧
      infFilesOf (invokes (eventsOf (main exCfg exArgs okOracle))) =
        [backendFileList exCfg exArgs, [exArgs.checkpoint]] ∧
      (exCfg.backend.getD "default" ≠ "pytorch" →
        "output_" ++ exCfg.backend.getD "default" ++ ".jpg" ≠ "output_pytorch.jpg") :=
  C7_two_visualizations exCfg exArgs okOracle (fun _ => rfl) (by decide) (by decide)

/-- The backend-compile invocations of a successful tensorrt run with
matching lengths: exactly the positional pairing of model_params entries
with intermediate files. -/
theorem main_trt_filter (cfg : DeployCfg) (args : Args) (oracle : Oracle)
    (tp : TensorrtParams)
    (hor : ∀ n, oracle n = some 0)
    (hs : cfg.apply_marks = true → cfg.split_params ≠ none)
    (hb : cfg.backend.getD "default" = "tensorrt")
    (htp : cfg.tensorrt_params = some tp)
    (hlen : (tp.model_params.getD []).length = (fileList cfg args).length) :
    (invokes (eventsOf (main cfg args oracle))).filter isTrtC =
      trtCalls args.work_dir args.deploy_cfg args.device 0 (tp.model_params.getD [])
        (fileList cfg args) := by
  have hgetd : cfg.tensorrt_params.getD ⟨none⟩ = tp := by rw [htp]; rfl
  rw [main_succ cfg args oracle hor hs
    (fun _ => ⟨by simp [htp], by rw [hgetd]; exact hlen⟩)]
  show (invokes (mainEvents cfg args)).filter isTrtC = _
  rw [invokes_mainEvents, hgetd]
  by_cases hm : cfg.apply_marks = true <;>
    simp [hm, hb, List.filter_cons, List.filter_append, isTrtC,
      filter_isTrtC_splitCalls, filter_isTrtC_trtCalls]

/-- C4: with the tensorrt backend selected and tensorrt_params present, a
model_params length mismatch stops the run at the length assertion with no
backend-compile invocation at all, while matching lengths give exactly one
backend-compile invocation per intermediate file, paired by position. -/
theorem C4_tensorrt_length_check (cfg : DeployCfg) (args : Args) (oracle : Oracle)
    (tp : TensorrtParams)
    (hor : ∀ n, oracle n = some 0)
    (hs : cfg.apply_marks = true → cfg.split_params ≠ none)
    (hb : cfg.backend.getD "default" = "tensorrt")
    (htp : cfg.tensorrt_params = some tp) :
    ((tp.model_params.getD []).length ≠ (fileList cfg args).length →
      assertMsgOf (main cfg args oracle) = some "len(model_params) == len(onnx_files)" ∧
        (invokes (eventsOf (main cfg args oracle))).filter isTrtC = []) ∧
    ((tp.model_params.getD []).length = (fileList cfg args).length →
      (invokes (eventsOf (main cfg args oracle))).filter isTrtC =
          trtCalls args.work_dir args.deploy_cfg args.device 0 (tp.model_params.getD [])
            (fileList cfg args) ∧
        ((invokes (eventsOf (main cfg args oracle))).filter isTrtC).length =
          (fileList cfg args).length) := by
  constructor
  · intro hlen
    rw [main]
    rw [create_process_succ _ _ _ _ hor]
    rw [exceptBind_ok]
    dsimp only
    rw [splitStage_fileList cfg args oracle hor hs _ rfl]
    rw [exceptBind_ok]
    dsimp only
    rw [backendStage_mismatch cfg args oracle _ _ tp hb htp hlen]
    rw [exceptBind_error]
    refine ⟨rfl, ?_⟩
    show ((invokes (([Event.flagCreate 0] ++
        stepEvents "torch2onnx"
          (.torch2onnx args.img args.work_dir cfg.pytorch2onnx.save_file args.deploy_cfg
            args.model_cfg args.checkpoint args.device) 0 args.log_level) ++
        (if cfg.apply_marks then
          splitEvents args.work_dir (ospJoin args.work_dir cfg.pytorch2onnx.save_file)
            args.log_level (cfg.split_params.getD [])
        else []))).filter isTrtC) = []
    rw [invokes_append, invokes_append, invokes_stepEvents]
    have hfc : invokes [Event.flagCreate 0] = [] := rfl
    by_cases hm : cfg.apply_marks = true
    · rw [if_pos hm, invokes_splitEvents]
      simp [hfc, List.filter_append, List.filter_cons, isTrtC, filter_isTrtC_splitCalls]
    · rw [if_neg hm]
      simp [hfc, List.filter_append, List.filter_cons, isTrtC, invokes]
  · intro hlen
    refine ⟨main_trt_filter cfg args oracle tp hor hs hb htp hlen, ?_⟩
    rw [main_trt_filter cfg args oracle tp hor hs hb htp hlen]
    exact trtCalls_length _ _ _ _ _ _ hlen

/-- A tensorrt configuration with one model_params entry (no explicit
output name) matching the single intermediate file. -/
def cfgT : DeployCfg :=
  { pytorch2onnx := ⟨"model.onnx"⟩, apply_marks := false, split_params := none,
    backend := some "tensorrt", tensorrt_params := some ⟨some [⟨none⟩]⟩, codebase := "mmdet" }

/-- Witness for C4_tensorrt_length_check at the matching one-entry
tensorrt configuration. -/
theorem C4_tensorrt_length_check_witness :
    (((⟨some [⟨none⟩]⟩ : TensorrtParams).model_params.getD []).length ≠
        (fileList cfgT exArgs).length →
      assertMsgOf (main cfgT exArgs okOracle) = some "len(model_params) == len(onnx_files)" ∧
        (invokes (eventsOf (main cfgT exArgs okOracle))).filter isTrtC = []) ∧
    (((⟨some [⟨none⟩]⟩ : TensorrtParams).model_params.getD []).length =
        (fileList cfgT exArgs).length →
      (invokes (eventsOf (main cfgT exArgs okOracle))).filter isTrtC =
          trtCalls exArgs.work_dir exArgs.deploy_cfg exArgs.device 0
            ((⟨some [⟨none⟩]⟩ : TensorrtParams).model_params.getD []) (fileList cfgT exArgs) ∧
        ((invokes (eventsOf (main cfgT exArgs okOracle))).filter isTrtC).length =
          (fileList cfgT exArgs).length) :=
  C4_tensorrt_length_check cfgT exArgs okOracle ⟨some [⟨none⟩]⟩
    (fun _ => rfl) (by decide) (by decide) (by decide)

/-- C8: in a successful tensorrt run with matching lengths, an entry with
no explicit save_file gets an output name derived from the intermediate
file's base name (directory and extension stripped) with the engine
extension appended, and the accumulated backend file at that position is
that name joined under the work directory. -/
theorem C8_default_engine_name (cfg : DeployCfg) (args : Args) (oracle : Oracle)
    (tp : TensorrtParams) (i : Nat) (mp : ModelParam) (path : String)
    (hor : ∀ n, oracle n = some 0)
    (hs : cfg.apply_marks = true → cfg.split_params ≠ none)
    (hb : cfg.backend.getD "default" = "tensorrt")
    (htp : cfg.tensorrt_params = some tp)
    (hlen : (tp.model_params.getD []).length = (fileList cfg args).length)
    (hmp : (tp.model_params.getD []).get? i = some mp)
    (hnone : mp.save_file = none)
    (hpath : (fileList cfg args).get? i = some path) :
    ((invokes (eventsOf (main cfg args oracle))).filter isTrtC).get? i =
        some (.onnx2tensorrt args.work_dir (splitextRoot (ospSplitTail path) ++ ".engine") i
          args.deploy_cfg path args.device) ∧
      ((infFilesOf (invokes (eventsOf (main cfg args oracle)))).headD []).get? i =
        some (ospJoin args.work_dir (splitextRoot (ospSplitTail path) ++ ".engine")) := by
  have hgetd : cfg.tensorrt_params.getD ⟨none⟩ = tp := by rw [htp]; rfl
  have hsave : trtSaveFile mp path = splitextRoot (ospSplitTail path) ++ ".engine" := by
    rw [trtSaveFile, hnone]
    rfl
  constructor
  · rw [main_trt_filter cfg args oracle tp hor hs hb htp hlen]
    have hg := trtCalls_get args.work_dir args.deploy_cfg args.device
      (tp.model_params.getD []) (fileList cfg args) i 0 mp path hmp hpath
    rw [Nat.zero_add] at hg
    rw [hg, hsave]
  · obtain ⟨h1, h2, h3⟩ := main_inf_projections cfg args oracle hor hs
      (fun _ => ⟨by simp [htp], by rw [hgetd]; exact hlen⟩)
    rw [h3]
    show (backendFileList cfg args).get? i = _
    rw [backendFileList, if_pos hb, hgetd]
    rw [trtFiles_get args.work_dir (tp.model_params.getD []) (fileList cfg args) i mp path
      hmp hpath, hsave]

/-- Witness for C8_default_engine_name at the one-entry tensorrt
configuration: the derived name is model.engine under the work directory. -/
theorem C8_default_engine_name_witness :
    ((invokes (eventsOf (main cfgT exArgs okOracle))).filter isTrtC).get? 0 =
        some (.onnx2tensorrt exArgs.work_dir
          (splitextRoot (ospSplitTail "work/model.onnx") ++ ".engine") 0 exArgs.deploy_cfg
          "work/model.onnx" exArgs.device) ∧
      ((infFilesOf (invokes (eventsOf (main cfgT exArgs okOracle)))).headD []).get? 0 =
        some (ospJoin exArgs.work_dir
          (splitextRoot (ospSplitTail "work/model.onnx") ++ ".engine")) :=
  C8_default_engine_name cfgT exArgs okOracle ⟨some [⟨none⟩]⟩ 0 ⟨none⟩ "work/model.onnx"
    (fun _ => rfl) (by decide) (by decide) (by decide) (by decide) (by decide) (by decide)
    (by decide)

end Deploy
